import Mathlib

/-!
The program `dataset_convertor.cpp` of okvis_ros, as a shallow embedding.

The converter reads a sensor configuration from the ROS parameter server,
derives an output root from the path of the bag file, opens one CSV stream per
configured topic and then walks the bag, routing every message to the stream of
the sensor its topic resolves to.

Conventions of the embedding:

* a `std::string` is the list of its `char`s (`Str`); every `std::string` has
  fewer than `npos = 2^64 - 1` characters, which theorems that depend on it
  take as a hypothesis;
* a `std::map<std::string, V>` is an association list (`StdMap V`) whose
  `insert` keeps an existing key and otherwise places the new pair in key
  order, as `std::map::insert` does;
* `size_t` values are natural numbers, with subtraction and addition reduced
  modulo `2^64` where the source computes with them;
* a call that throws or dereferences `end()` or a null pointer yields `none`;
  `exit(EXIT_FAILURE)` yields `Except.error` with the diagnostic printed;
* opening a stream, decoding an image and writing a file succeed; the records
  of the bag are given as the list the `rosbag::View` iterator yields.
-/

namespace DatasetConvertor

/-! ## Strings -/

/-- A `std::string`, as the list of its characters. -/
abbrev Str := List Char

/-- The value `std::string::npos`, the largest `size_t`. -/
def npos : Nat := 2 ^ 64 - 1

/-- Unsigned 64-bit subtraction `a - b` on `size_t`. -/
def sub64 (a b : Nat) : Nat := (a % 2 ^ 64 + (2 ^ 64 - b % 2 ^ 64)) % 2 ^ 64

/-- Unsigned 64-bit addition `a + b` on `size_t`. -/
def add64 (a b : Nat) : Nat := (a + b) % 2 ^ 64

/-- Scan for `find_first_of`: `i` is the index of the head of the remaining text. -/
def findFirstFrom (chars : Str) : Str → Nat → Nat
  | [], _ => npos
  | c :: cs, i => if c ∈ chars then i else findFirstFrom chars cs (i + 1)

/-- The call `s.find_first_of(chars)`: index of the first character of `s` that
occurs in `chars`, or `npos`. -/
def find_first_of (s chars : Str) : Nat := findFirstFrom chars s 0

/-- Scan for `find_last_of`: `best` is the last match seen so far. -/
def findLastFrom (chars : Str) : Str → Nat → Nat → Nat
  | [], _, best => best
  | c :: cs, i, best => findLastFrom chars cs (i + 1) (if c ∈ chars then i else best)

/-- The call `s.find_last_of(chars)`: index of the last character of `s` that
occurs in `chars`, or `npos`. -/
def find_last_of (s chars : Str) : Nat := findLastFrom chars s 0 npos

/-- The call `s.substr(pos, len)`: throws `std::out_of_range` (here `none`) when
`pos > s.size()`, and otherwise returns the characters from `pos` on, at most
`len` of them. The default `len` of the one-argument form is `npos`. -/
def substr (s : Str) (pos len : Nat) : Option Str :=
  if pos ≤ s.length then some ((s.drop pos).take len) else none

/-- Text that `operator<<` prints for an unsigned integer. -/
def showUInt (n : Nat) : Str := Nat.toDigits 10 n

/-- The order `operator<` of `std::string`: lexicographic on character codes. -/
def strLt : Str → Str → Bool
  | [], [] => false
  | [], _ :: _ => true
  | _ :: _, [] => false
  | a :: as, b :: bs =>
    if a.toNat < b.toNat then true
    else if b.toNat < a.toNat then false
    else strLt as bs

/-! ## `std::map` -/

/-- A `std::map<std::string, V>`: its pairs in iteration order. -/
abbrev StdMap (V : Type) := List (Str × V)

/-- The call `m.find(k)`; `none` is `m.end()`. -/
def StdMap.find {V : Type} : StdMap V → Str → Option (Str × V)
  | [], _ => none
  | (k', v) :: rest, k => if k' = k then some (k', v) else StdMap.find rest k

/-- Place a pair before the first pair with a greater key. -/
def StdMap.orderedInsert {V : Type} (k : Str) (v : V) : StdMap V → StdMap V
  | [] => [(k, v)]
  | (k', v') :: rest =>
    if strLt k k' then (k, v) :: (k', v') :: rest
    else (k', v') :: StdMap.orderedInsert k v rest

/-- The call `m.insert(std::pair(k, v))`: no effect when `k` is already a key. -/
def StdMap.insert {V : Type} (m : StdMap V) (k : Str) (v : V) : StdMap V :=
  match StdMap.find m k with
  | some _ => m
  | none => StdMap.orderedInsert k v m

/-- The expression `m[k]` of a non-const map: the value under `k`, after
inserting a default value when `k` is not a key. Returns the value and the map. -/
def StdMap.index {V : Type} [Inhabited V] (m : StdMap V) (k : Str) : V × StdMap V :=
  match StdMap.find m k with
  | some (_, v) => (v, m)
  | none => (default, StdMap.orderedInsert k default m)

/-- Replace the value stored under `k` (a write through the stored pointer). -/
def StdMap.modify {V : Type} (f : V → V) (k : Str) : StdMap V → StdMap V
  | [] => []
  | (k', v) :: rest =>
    if k' = k then (k', f v) :: rest else (k', v) :: StdMap.modify f k rest

/-! ## Constants of the source -/

def SENSOR_LIST : Str := "sensors".toList
def CSVFILE : Str := "data_file".toList
def DATADIR : Str := "data_dir".toList
def SENSOR_TYPE : Str := "type".toList
def INFO : Str := "info".toList
def TOPIC : Str := "topic".toList
def NAME : Str := "name".toList
def CAMERA : Str := "camera".toList
def IMU : Str := "imu".toList
def VICON : Str := "vicon".toList

/-- The type of `topic2info`: topic to the per-sensor key/value map. -/
abbrev SensorInfoMap := StdMap (StdMap Str)

/-! ## Topic resolution -/

/-- The function `isTopicInMap`; `none` when `substr` throws. -/
def isTopicInMap (topic2info : SensorInfoMap) (topic_name : Str) : Option Bool :=
  match StdMap.find topic2info topic_name with
  | some _ => some true
  | none =>
    let first_slash := find_first_of topic_name "/".toList
    if first_slash = 0 then
      match substr topic_name 1 npos with
      | none => none
      | some stripped =>
        match StdMap.find topic2info stripped with
        | some _ => some true
        | none => some false
    else
      match StdMap.find topic2info ("/".toList ++ topic_name) with
      | some _ => some true
      | none => some false

/-- The function `findTopicInMap`: the returned flag and the iterator `element`
(`none` is `topic2info.end()`); the outer `none` when `substr` throws. -/
def findTopicInMap (topic2info : SensorInfoMap) (topic_name : Str) :
    Option (Bool × Option (Str × StdMap Str)) :=
  match StdMap.find topic2info topic_name with
  | some e => some (true, some e)
  | none =>
    let first_slash := find_first_of topic_name "/".toList
    if first_slash = 0 then
      match substr topic_name 1 npos with
      | none => none
      | some stripped =>
        match StdMap.find topic2info stripped with
        | some e => some (true, some e)
        | none => some (false, none)
    else
      match StdMap.find topic2info ("/".toList ++ topic_name) with
      | some e => some (true, some e)
      | none => some (false, none)

/-- The three-step resolution order in the words of the specification: the
entry under `t`; else, for `t` beginning with the separator, the entry under
`t` without that one separator; else the entry under the separator followed by
`t`; else not found. -/
def resolveThreeStep (m : SensorInfoMap) (t : Str) : Option (Str × StdMap Str) :=
  match StdMap.find m t with
  | some e => some e
  | none =>
    match t with
    | '/' :: u => StdMap.find m u
    | _ => StdMap.find m ('/' :: t)

/-- The separator toggle of the specification: drop the leading separator of
`t` when there is one, prepend one otherwise. -/
def normalizeSeparator : Str → Str
  | '/' :: u => u
  | t => '/' :: t


/-! ## The output root -/

/-- How a run ends early: `exit(EXIT_FAILURE)` after printing a diagnostic, or
an exception that nothing catches. -/
inductive Failure where
  | exit (diagnostic : Str)
  | exception
  deriving DecidableEq

/-- The diagnostic `main` prints for a path without a separator. -/
def relativePathMessage : Str :=
  ("Relative path are not supported. Use an absolute path instead." ++
    "For example: roslaunch okvis_ros convert_datasert.launch bag:= /absolute/path/here").toList

/-- The computation of `bagname` and `bagpath` from `argv[1]` in `main`. -/
def bagNameAndPath (path : Str) : Except Failure (Str × Str) :=
  let pos := find_last_of path "/".toList
  let pos_dot := find_last_of path ".".toList
  if pos = npos then
    .error (.exit relativePathMessage)
  else
    match substr path (add64 pos 1) (sub64 (sub64 pos_dot pos) 1) with
    | none => .error .exception
    | some bagname =>
      match substr path 0 (add64 pos 1) with
      | none => .error .exception
      | some bagpath => .ok (bagname, bagpath)

/-- The argument `bagpath + bagname` that `main` passes to `createDirs` and to
`openFileStreams`. -/
def outputRoot (path : Str) : Except Failure Str :=
  match bagNameAndPath path with
  | .error e => .error e
  | .ok (bagname, bagpath) => .ok (bagpath ++ bagname)

/-- The directory part of a path in the words of the specification: the path
up to and including its last separator. -/
def specBagDir (path : Str) : Str :=
  (path.reverse.dropWhile (fun c => c != '/')).reverse

/-- The file name of a path: the text after its last separator. -/
def specFileName (path : Str) : Str :=
  (path.reverse.takeWhile (fun c => c != '/')).reverse

/-- A file name with its last extension removed: the text before its last
dot, or the whole name when it has no dot. -/
def specStripExt (name : Str) : Str :=
  if '.' ∈ name then ((name.reverse.dropWhile (fun c => c != '.')).drop 1).reverse else name

/-! ## The file system calls of `createDirs` -/

/-- A call into `boost::filesystem` made by `createDirs`. -/
inductive FsOp where
  | remove_all (p : Str)
  | create_directories (p : Str)
  deriving DecidableEq

/-- The loop of `createDirs` over `sensor_info`. Because of `res && ...`, a
directory is only created while `res` is still true. -/
def createDirsLoop (created : Str → Bool) (folderPath : Str) :
    List (Str × StdMap Str) → Bool → List FsOp → Bool × List FsOp
  | [], res, ops => (res, ops)
  | iterator :: rest, res, ops =>
    let sensor_folder :=
      if (StdMap.find iterator.2 DATADIR).isSome then
        folderPath ++ "/".toList ++ (StdMap.index iterator.2 DATADIR).1
      else
        folderPath ++ "/".toList ++ (StdMap.index iterator.2 NAME).1
    if res then
      createDirsLoop created folderPath rest (created sensor_folder)
        (ops ++ [FsOp.create_directories sensor_folder])
    else
      createDirsLoop created folderPath rest false ops

/-- The function `createDirs`: its result and the file-system calls it makes,
in order. `pathExists` is the answer of `exists(p)` and `created p` the result
of `create_directories(p)`. -/
def createDirs (pathExists : Bool) (created : Str → Bool) (folderPath : Str)
    (sensor_info : SensorInfoMap) : Bool × List FsOp :=
  let ops := if pathExists then [FsOp.remove_all folderPath] else []
  createDirsLoop created folderPath sensor_info (created folderPath)
    (ops ++ [FsOp.create_directories folderPath])

/-! ## The sensor configuration -/

/-- The part of `ros::NodeHandle` that `sensorInfo` uses: the three typed
overloads of `getParam`, `none` when the call returns false. -/
structure NodeHandle where
  getParamList : Str → Option (List Str)
  getParamString : Str → Option Str
  getParamMap : Str → Option (StdMap Str)

/-- The diagnostic `sensorInfo` prints for a missing parameter. -/
def missingMessage (param : Str) : Str :=
  "FAIL! Missing \"".toList ++ param ++ "\" parameter. Check your yaml or launch file".toList

/-- One pass of the loop body of `sensorInfo` after `getParam` succeeded: the
topic and the `sensor_new_info` map that is inserted under it. -/
def sensorEntry (sensor csv_filename : Str) (sensor_params : StdMap Str) : Str × StdMap Str :=
  let (topic, sensor_params) := StdMap.index sensor_params TOPIC
  let csv_file_path := sensor ++ "/".toList ++ csv_filename
  let sensor_new_info := StdMap.insert [] CSVFILE csv_file_path
  let (sensor_new_info, sensor_params) :=
    if (StdMap.find sensor_params DATADIR).isSome then
      let (dir, sensor_params) := StdMap.index sensor_params DATADIR
      (StdMap.insert sensor_new_info DATADIR (sensor ++ "/".toList ++ dir), sensor_params)
    else
      (sensor_new_info, sensor_params)
  let (sensor_type, _) := StdMap.index sensor_params SENSOR_TYPE
  let sensor_new_info := StdMap.insert sensor_new_info SENSOR_TYPE sensor_type
  let sensor_new_info := StdMap.insert sensor_new_info NAME sensor
  (topic, sensor_new_info)

/-- The loop of `sensorInfo` over `sensor_list`. -/
def sensorInfoLoop (nh : NodeHandle) (csv_filename : Str) :
    List Str → SensorInfoMap → Except Failure SensorInfoMap
  | [], topic2info => .ok topic2info
  | sensor :: rest, topic2info =>
    let ss := INFO ++ "/".toList ++ sensor
    match nh.getParamMap ss with
    | none => .error (.exit (missingMessage ss))
    | some sensor_params =>
      let (topic, sensor_new_info) := sensorEntry sensor csv_filename sensor_params
      sensorInfoLoop nh csv_filename rest (StdMap.insert topic2info topic sensor_new_info)

/-- The function `sensorInfo`. -/
def sensorInfo (nh : NodeHandle) : Except Failure SensorInfoMap :=
  match nh.getParamList SENSOR_LIST with
  | none => .error (.exit (missingMessage SENSOR_LIST))
  | some sensor_list =>
    match nh.getParamString CSVFILE with
    | none => .error (.exit (missingMessage CSVFILE))
    | some csv_filename => sensorInfoLoop nh csv_filename sensor_list []

/-! ## Output streams and headers -/

/-- A `std::ofstream`: the path it was opened on and the lines written to it,
each one a `<< ... << std::endl`. -/
structure OfStream where
  path : Str
  lines : List Str
  deriving DecidableEq

/-- Write one line followed by `std::endl`. -/
def OfStream.writeLine (file : OfStream) (line : Str) : OfStream :=
  { file with lines := file.lines ++ [line] }

/-- The text `writeCameraHeader` writes. -/
def cameraHeader : Str := "#timestamp [ns],".toList ++ "filename".toList

/-- The text `writeImuHeader` writes. -/
def imuHeader : Str :=
  "#timestamp [ns],".toList ++ "w_S_x [rad s^-1],".toList ++ "w_S_y [rad s^-1],".toList ++
    "w_S_z [rad s^-1],".toList ++ "a_S_x [m s^-2],".toList ++ "a_S_y [m s^-2],".toList ++
    "a_S_z [m s^-2]".toList

/-- The text `writeViconHeader` writes. -/
def viconHeader : Str :=
  "#timestamp [ns],".toList ++ "p_S_x [m],".toList ++ "p_S_y [m],".toList ++
    "p_S_z [m],".toList ++ "R_S_w []".toList ++ "R_S_x [],".toList ++ "R_S_y [],".toList ++
    "R_S_z []".toList

def writeCameraHeader (file : OfStream) : OfStream := file.writeLine cameraHeader

def writeImuHeader (file : OfStream) : OfStream := file.writeLine imuHeader

def writeViconHeader (file : OfStream) : OfStream := file.writeLine viconHeader

/-- A write through `files.find(key)->second` or `files[key]`: `none` when the
key is absent, where the source dereferences `end()` or a null pointer. -/
def writeThrough (files : StdMap OfStream) (key : Str) (f : OfStream → OfStream) :
    Option (StdMap OfStream) :=
  match StdMap.find files key with
  | none => none
  | some _ => some (StdMap.modify f key files)

/-- The function `writeCSVHeaders`. -/
def writeCSVHeaders (files : StdMap OfStream) :
    List (Str × StdMap Str) → Option (StdMap OfStream)
  | [] => some files
  | iterator :: rest =>
    let sensor_type := (StdMap.index iterator.2 SENSOR_TYPE).1
    if sensor_type = CAMERA then
      match writeThrough files iterator.1 writeCameraHeader with
      | none => none
      | some files => writeCSVHeaders files rest
    else if sensor_type = IMU then
      match writeThrough files iterator.1 writeImuHeader with
      | none => none
      | some files => writeCSVHeaders files rest
    else if sensor_type = VICON then
      match writeThrough files iterator.1 writeViconHeader with
      | none => none
      | some files => writeCSVHeaders files rest
    else
      writeCSVHeaders files rest

/-- The loop of `openFileStreams`: the stream map, and `sensor_info` as the
by-reference `iterator.second[CSVFILE]` leaves it. -/
def openFileStreamsLoop (folder_path : Str) :
    List (Str × StdMap Str) → StdMap OfStream → StdMap OfStream × List (Str × StdMap Str)
  | [], topic2file_map => (topic2file_map, [])
  | iterator :: rest, topic2file_map =>
    let topic := iterator.1
    let (csv_file, info) := StdMap.index iterator.2 CSVFILE
    let csv_file_path := folder_path ++ "/".toList ++ csv_file
    let file : OfStream := { path := csv_file_path, lines := [] }
    let (files, rest) := openFileStreamsLoop folder_path rest (StdMap.insert topic2file_map topic file)
    (files, (iterator.1, info) :: rest)

/-- The function `openFileStreams`: the stream map with the headers written,
and `sensor_info` as the call leaves it. -/
def openFileStreams (folder_path : Str) (sensor_info : SensorInfoMap) :
    Option (StdMap OfStream × SensorInfoMap) :=
  let (topic2file_map, sensor_info) := openFileStreamsLoop folder_path sensor_info []
  match writeCSVHeaders topic2file_map sensor_info with
  | none => none
  | some topic2file_map => some (topic2file_map, sensor_info)

/-! ## Messages and serializers

The type `D` stands for `double`, and `showDouble` for the text `operator<<`
prints for a `double` at `std::setprecision(DOUBLE_PRECISION)`. A time stamp is
given by the value of `toNSec()`, an unsigned 64-bit number of nanoseconds.
Decoding an image and writing it with `cv::imwrite` are calls into OpenCV; only
the path passed to `cv::imwrite` is recorded. -/

structure Vector3 (D : Type) where
  x : D
  y : D
  z : D

structure Quaternion (D : Type) where
  x : D
  y : D
  z : D
  w : D

/-- A `sensor_msgs::Image`, reduced to `header.stamp.toNSec()`. -/
structure Image where
  stamp : Nat

/-- A `sensor_msgs::Imu`, reduced to the fields the converter reads. -/
structure Imu (D : Type) where
  stamp : Nat
  angular_velocity : Vector3 D
  linear_acceleration : Vector3 D

/-- A `geometry_msgs::TransformStamped`, reduced to the fields the converter reads. -/
structure TransformStamped (D : Type) where
  stamp : Nat
  translation : Vector3 D
  rotation : Quaternion D

/-- The payload of a bag record. -/
inductive Message (D : Type) where
  | image (m : Image)
  | imu (m : Imu D)
  | transform (m : TransformStamped D)
  | other

/-- A `rosbag::MessageInstance`: `getTopic()` and the stored message. -/
structure MessageInstance (D : Type) where
  topic : Str
  msg : Message D

/-- The call `bagIt.instantiate<sensor_msgs::Image>()`; `none` is the null pointer. -/
def MessageInstance.instantiateImage {D : Type} (bagIt : MessageInstance D) : Option Image :=
  match bagIt.msg with
  | .image m => some m
  | _ => none

/-- The call `bagIt.instantiate<sensor_msgs::Imu>()`; `none` is the null pointer. -/
def MessageInstance.instantiateImu {D : Type} (bagIt : MessageInstance D) : Option (Imu D) :=
  match bagIt.msg with
  | .imu m => some m
  | _ => none

/-- The call `bagIt.instantiate<geometry_msgs::TransformStamped>()`; `none` is
the null pointer. -/
def MessageInstance.instantiateTransform {D : Type} (bagIt : MessageInstance D) :
    Option (TransformStamped D) :=
  match bagIt.msg with
  | .transform m => some m
  | _ => none

/-- The line `writeCSVCamera` builds in `ss`. -/
def cameraLine (stamp : Nat) : Str :=
  showUInt stamp ++ ",".toList ++ showUInt stamp ++ ".png".toList

/-- The line `writeCSVImu` builds in `ss`. -/
def imuLine {D : Type} (showDouble : D → Str) (imu : Imu D) : Str :=
  showUInt imu.stamp ++ ",".toList ++
    showDouble imu.angular_velocity.x ++ ",".toList ++
    showDouble imu.angular_velocity.y ++ ",".toList ++
    showDouble imu.angular_velocity.z ++ ",".toList ++
    showDouble imu.linear_acceleration.x ++ ",".toList ++
    showDouble imu.linear_acceleration.y ++ ",".toList ++
    showDouble imu.linear_acceleration.z

/-- The line `writeCSVVicon` builds in `ss`. -/
def viconLine {D : Type} (showDouble : D → Str) (vicon : TransformStamped D) : Str :=
  showUInt vicon.stamp ++ ",".toList ++
    showDouble vicon.translation.x ++ ",".toList ++
    showDouble vicon.translation.y ++ ",".toList ++
    showDouble vicon.translation.z ++ ",".toList ++
    showDouble vicon.rotation.w ++ ",".toList ++
    showDouble vicon.rotation.x ++ ",".toList ++
    showDouble vicon.rotation.y ++ ",".toList ++
    showDouble vicon.rotation.z

def writeCSVCamera (file : OfStream) (stamp : Nat) : OfStream :=
  file.writeLine (cameraLine stamp)

def writeCSVImu {D : Type} (showDouble : D → Str) (file : OfStream) (imu : Imu D) : OfStream :=
  file.writeLine (imuLine showDouble imu)

def writeCSVVicon {D : Type} (showDouble : D → Str) (file : OfStream)
    (vicon : TransformStamped D) : OfStream :=
  file.writeLine (viconLine showDouble vicon)

/-- The fields of a CSV line: the line split at its commas. -/
def csvFields (line : Str) : List Str := List.splitOn ',' line

/-! ## The streaming loop of `main` -/

/-- The statement `counter++` on the `double counter`, which only ever holds a
natural number: exact below `2^53`, while `2^53 + 1` rounds back to `2^53`. -/
def counterIncrement (counter : Nat) : Nat :=
  if counter < 2 ^ 53 then counter + 1 else counter

/-- What the streaming loop changes: the streams of `topic2file`, the paths
passed to `cv::imwrite` so far, and `counter`. -/
structure RunState where
  topic2file : StdMap OfStream
  imwrite : List Str
  counter : Nat

/-- The `if (sens_type.compare(CAMERA) == 0)` block of the loop body. -/
def cameraBlock {D : Type} (bagpath bagname : Str) (sensor_it : Str × StdMap Str)
    (st : RunState) (bagIt : MessageInstance D) : Option RunState :=
  match bagIt.instantiateImage with
  | none => none
  | some image =>
    match StdMap.find sensor_it.2 DATADIR with
    | none => none
    | some data_dir =>
      let ss := bagpath ++ bagname ++ "/".toList ++ data_dir.2 ++ "/".toList ++
        showUInt image.stamp ++ ".png".toList
      match writeThrough st.topic2file sensor_it.1 (fun file => writeCSVCamera file image.stamp) with
      | none => none
      | some files => some { st with topic2file := files, imwrite := st.imwrite ++ [ss] }

/-- The `if (sens_type.compare(IMU) == 0)` block of the loop body. -/
def imuBlock {D : Type} (showDouble : D → Str) (sensor_it : Str × StdMap Str)
    (st : RunState) (bagIt : MessageInstance D) : Option RunState :=
  match bagIt.instantiateImu with
  | none => none
  | some imuReading =>
    match writeThrough st.topic2file sensor_it.1
        (fun file => writeCSVImu showDouble file imuReading) with
    | none => none
    | some files => some { st with topic2file := files }

/-- The `if (sens_type.compare(VICON) == 0)` block of the loop body. -/
def viconBlock {D : Type} (showDouble : D → Str) (sensor_it : Str × StdMap Str)
    (st : RunState) (bagIt : MessageInstance D) : Option RunState :=
  match bagIt.instantiateTransform with
  | none => none
  | some viconReading =>
    match writeThrough st.topic2file sensor_it.1
        (fun file => writeCSVVicon showDouble file viconReading) with
    | none => none
    | some files => some { st with topic2file := files }

/-- The body of the streaming loop `for (auto bagIt : view)` in `main`; `none`
when it throws or dereferences `end()` or a null pointer. -/
def mainLoopBody {D : Type} (showDouble : D → Str) (bagpath bagname : Str)
    (topic2info_map : SensorInfoMap) (st : RunState) (bagIt : MessageInstance D) :
    Option RunState :=
  match findTopicInMap topic2info_map bagIt.topic with
  | none => none
  | some (_, none) => some { st with counter := counterIncrement st.counter }
  | some (_, some sensor_it) =>
    match StdMap.find sensor_it.2 SENSOR_TYPE with
    | none => none
    | some sens_type =>
      match (if sens_type.2 = CAMERA then cameraBlock bagpath bagname sensor_it st bagIt
          else some st) with
      | none => none
      | some st =>
        match (if sens_type.2 = IMU then imuBlock showDouble sensor_it st bagIt else some st) with
        | none => none
        | some st =>
          match (if sens_type.2 = VICON then viconBlock showDouble sensor_it st bagIt
              else some st) with
          | none => none
          | some st => some { st with counter := counterIncrement st.counter }

/-- The streaming loop of `main` over the records of `view`, in stored order. -/
def mainLoop {D : Type} (showDouble : D → Str) (bagpath bagname : Str)
    (topic2info_map : SensorInfoMap) : RunState → List (MessageInstance D) → Option RunState
  | st, [] => some st
  | st, bagIt :: rest =>
    match mainLoopBody showDouble bagpath bagname topic2info_map st bagIt with
    | none => none
    | some st => mainLoop showDouble bagpath bagname topic2info_map st rest

/-- The function `main`, from the sensor configuration to the end of the
streaming loop. `view` is the sequence of records the iterator of the
`rosbag::View` yields; `pathExists` and `created` answer the file-system calls
of `createDirs`. The result is the state in which the streams are closed. -/
def main {D : Type} (showDouble : D → Str) (nh : NodeHandle) (argv1 : Str)
    (pathExists : Bool) (created : Str → Bool) (view : List (MessageInstance D)) :
    Except Failure RunState :=
  match sensorInfo nh with
  | .error e => .error e
  | .ok topic2info_map =>
    match bagNameAndPath argv1 with
    | .error e => .error e
    | .ok (bagname, bagpath) =>
      if (createDirs pathExists created (bagpath ++ bagname) topic2info_map).1 = false then
        .error (.exit "FAILED!".toList)
      else
        match openFileStreams (bagpath ++ bagname) topic2info_map with
        | none => .error .exception
        | some (topic2file, topic2info_map) =>
          match mainLoop showDouble bagpath bagname topic2info_map
              { topic2file := topic2file, imwrite := [], counter := 0 } view with
          | none => .error .exception
          | some st => .ok st

/-! ## Notions used to state the theorems -/

/-- The keys of a map, in iteration order. -/
def StdMap.keys {V : Type} (m : StdMap V) : List Str := m.map Prod.fst

/-- The value a non-const `m[k]` reads: the stored value, or the empty string. -/
def paramValue (m : StdMap Str) (k : Str) : Str := (StdMap.index m k).1

/-- The parameter block `info/<sensor>` of a sensor, empty when it is missing. -/
def sensorParams (nh : NodeHandle) (sensor : Str) : StdMap Str :=
  (nh.getParamMap (INFO ++ "/".toList ++ sensor)).getD []

/-- The header line of a sensor type, `none` for a type that is none of
`camera`, `imu` and `vicon`. -/
def headerLine (sensor_type : Str) : Option Str :=
  if sensor_type = CAMERA then some cameraHeader
  else if sensor_type = IMU then some imuHeader
  else if sensor_type = VICON then some viconHeader
  else none

/-- A freshly opened stream with the header of the sensor type written, when
the type has one. -/
def withHeader (sensor_type : Str) (file : OfStream) : OfStream :=
  match headerLine sensor_type with
  | some h => file.writeLine h
  | none => file

/-- The CSV line of a record, by the kind of its payload. -/
def csvLine {D : Type} (showDouble : D → Str) : Message D → Option Str
  | .image m => some (cameraLine m.stamp)
  | .imu m => some (imuLine showDouble m)
  | .transform m => some (viconLine showDouble m)
  | .other => none

/-- The topic under which `sensorInfo` files a sensor. -/
def sensorTopic (nh : NodeHandle) (sensor : Str) : Str :=
  paramValue (sensorParams nh sensor) TOPIC

/-- The type `sensorInfo` records for a sensor. -/
def sensorType (nh : NodeHandle) (sensor : Str) : Str :=
  paramValue (sensorParams nh sensor) SENSOR_TYPE

/-- What `sensorInfo` checks: the sensor list and the CSV file name are
present and every listed sensor has its parameter block. -/
def configChecked (nh : NodeHandle) : Bool :=
  match nh.getParamList SENSOR_LIST, nh.getParamString CSVFILE with
  | some sensor_list, some _ =>
    sensor_list.all (fun sensor => (nh.getParamMap (INFO ++ "/".toList ++ sensor)).isSome)
  | _, _ => false

/-- What the specification requires of a configuration: as `configChecked`,
and every parameter block has a `topic` and a `type`. -/
def configRequired (nh : NodeHandle) : Bool :=
  match nh.getParamList SENSOR_LIST, nh.getParamString CSVFILE with
  | some sensor_list, some _ =>
    sensor_list.all (fun sensor =>
      match nh.getParamMap (INFO ++ "/".toList ++ sensor) with
      | some p => (StdMap.find p TOPIC).isSome && (StdMap.find p SENSOR_TYPE).isSome
      | none => false)
  | _, _ => false

/-- A configuration whose only sensor has a parameter block with a `data_dir`
but without `topic` and without `type`. -/
def untypedConfig : NodeHandle where
  getParamList := fun k => if k = SENSOR_LIST then some ["cam0".toList] else none
  getParamString := fun k => if k = CSVFILE then some "data.csv".toList else none
  getParamMap := fun k =>
    if k = "info/cam0".toList then some [(DATADIR, "data".toList)] else none

/-- An entry of the map `sensorInfo` returns comes from a listed sensor: its
key and value are what `sensorEntry` builds from the parameter block of that
sensor. -/
def FromSensor (nh : NodeHandle) (csv : Str) (l : List Str) (e : Str × StdMap Str) : Prop :=
  ∃ s ∈ l, ∃ p, nh.getParamMap (INFO ++ "/".toList ++ s) = some p ∧ e = sensorEntry s csv p

/-- The stream `openFileStreams` opens for an entry of `sensor_info`, with the
header of the entry's type written. -/
def sinkOf (folder_path : Str) (e : Str × StdMap Str) : Str × OfStream :=
  (e.1, withHeader (paramValue e.2 SENSOR_TYPE)
    { path := folder_path ++ "/".toList ++ paramValue e.2 CSVFILE, lines := [] })

/-- Whether the loop body can serve a record: its topic resolves without a
throw and, when it resolves to a sensor of type `camera`, `imu` or `vicon`,
the record holds a message of that type; a `camera` sensor must also have a
`data_dir`. -/
def dispatchable {D : Type} (m : SensorInfoMap) (r : MessageInstance D) : Bool :=
  match findTopicInMap m r.topic with
  | none => false
  | some (_, none) => true
  | some (_, some e) =>
    if paramValue e.2 SENSOR_TYPE = CAMERA then
      r.instantiateImage.isSome && (StdMap.find e.2 DATADIR).isSome
    else if paramValue e.2 SENSOR_TYPE = IMU then r.instantiateImu.isSome
    else if paramValue e.2 SENSOR_TYPE = VICON then r.instantiateTransform.isSome
    else true

/-- The line a record contributes to the stream under `key`: its CSV line when
its topic resolves to the entry under `key` and that entry's type is `camera`,
`imu` or `vicon`; nothing otherwise. -/
def routedLine {D : Type} (showDouble : D → Str) (m : SensorInfoMap) (key : Str)
    (r : MessageInstance D) : Option Str :=
  match findTopicInMap m r.topic with
  | some (_, some e) =>
    if e.1 = key ∧ (headerLine (paramValue e.2 SENSOR_TYPE)).isSome = true then
      csvLine showDouble r.msg
    else none
  | _ => none

/-- A stream of the map with further lines written to it. -/
def appendLines (ls : List Str) (f : Str × OfStream) : Str × OfStream :=
  (f.1, { f.2 with lines := f.2.lines ++ ls })

/-! ## Concrete configurations and logs -/

/-- Scenario A of the specification: camera `cam0` on topic `/cam0/image`
with a data directory, and an IMU `imu0`. -/
def scenarioConfig : NodeHandle where
  getParamList := fun k =>
    if k = SENSOR_LIST then some ["cam0".toList, "imu0".toList] else none
  getParamString := fun k => if k = CSVFILE then some "data.csv".toList else none
  getParamMap := fun k =>
    if k = "info/cam0".toList then
      some [(DATADIR, "data".toList), (TOPIC, "/cam0/image".toList), (SENSOR_TYPE, CAMERA)]
    else if k = "info/imu0".toList then
      some [(TOPIC, "/imu0".toList), (SENSOR_TYPE, IMU)]
    else none

/-- The sensor map of `scenarioConfig`. -/
def scenarioMap : SensorInfoMap :=
  [("/cam0/image".toList,
      [(DATADIR, "cam0/data".toList), (CSVFILE, "cam0/data.csv".toList),
        (NAME, "cam0".toList), (SENSOR_TYPE, CAMERA)]),
    ("/imu0".toList,
      [(CSVFILE, "imu0/data.csv".toList), (NAME, "imu0".toList), (SENSOR_TYPE, IMU)])]

/-- The image record of Scenario A: topic without the leading separator, time
stamp `1000`. -/
def scenarioImage : MessageInstance Nat :=
  { topic := "cam0/image".toList, msg := .image { stamp := 1000 } }

/-- A log: the image of Scenario A, a record on an unmapped topic (Scenario B)
and an IMU sample. -/
def scenarioLog : List (MessageInstance Nat) :=
  [scenarioImage,
    { topic := "/unmapped/topic".toList, msg := .other },
    { topic := "/imu0".toList, msg := .imu ⟨2000, ⟨1, 2, 3⟩, ⟨4, 5, 6⟩⟩ }]

/-- A log none of whose records resolves. -/
def unmappedLog : List (MessageInstance Nat) :=
  [{ topic := "/unmapped/topic".toList, msg := .other },
    { topic := "/clock".toList, msg := .other }]

/-- A configuration whose sensor has a type that is none of the three
constants: `IMU` in capitals. -/
def capitalTypeConfig : NodeHandle where
  getParamList := fun k => if k = SENSOR_LIST then some ["imu0".toList] else none
  getParamString := fun k => if k = CSVFILE then some "data.csv".toList else none
  getParamMap := fun k =>
    if k = "info/imu0".toList then
      some [(TOPIC, "/imu0".toList), (SENSOR_TYPE, "IMU".toList)]
    else none

/-- The sensor map of `capitalTypeConfig`. -/
def capitalTypeMap : SensorInfoMap :=
  [("/imu0".toList,
    [(CSVFILE, "imu0/data.csv".toList), (NAME, "imu0".toList), (SENSOR_TYPE, "IMU".toList)])]

/-- An IMU sample on the topic of `capitalTypeConfig`. -/
def imuSample : MessageInstance Nat :=
  { topic := "/imu0".toList, msg := .imu ⟨2000, ⟨1, 2, 3⟩, ⟨4, 5, 6⟩⟩ }

/-- A configuration whose two cameras are given the same topic. -/
def sharedTopicConfig : NodeHandle where
  getParamList := fun k =>
    if k = SENSOR_LIST then some ["cam0".toList, "cam1".toList] else none
  getParamString := fun k => if k = CSVFILE then some "data.csv".toList else none
  getParamMap := fun k =>
    if k = "info/cam0".toList then
      some [(DATADIR, "data".toList), (TOPIC, "/cam/image".toList), (SENSOR_TYPE, CAMERA)]
    else if k = "info/cam1".toList then
      some [(DATADIR, "data".toList), (TOPIC, "/cam/image".toList), (SENSOR_TYPE, CAMERA)]
    else none

/-- The sensor map of `sharedTopicConfig`: the entry of `cam0` only. -/
def sharedTopicMap : SensorInfoMap :=
  [("/cam/image".toList,
    [(DATADIR, "cam0/data".toList), (CSVFILE, "cam0/data.csv".toList),
      (NAME, "cam0".toList), (SENSOR_TYPE, CAMERA)])]

/-- A configuration whose camera has no `data_dir`. -/
def noDataDirConfig : NodeHandle where
  getParamList := fun k => if k = SENSOR_LIST then some ["cam0".toList] else none
  getParamString := fun k => if k = CSVFILE then some "data.csv".toList else none
  getParamMap := fun k =>
    if k = "info/cam0".toList then
      some [(TOPIC, "/cam0/image".toList), (SENSOR_TYPE, CAMERA)]
    else none

/-- The sensor map of `noDataDirConfig`. -/
def noDataDirMap : SensorInfoMap :=
  [("/cam0/image".toList,
    [(CSVFILE, "cam0/data.csv".toList), (NAME, "cam0".toList), (SENSOR_TYPE, CAMERA)])]

/-- A pose sample. -/
def viconSample : TransformStamped Nat :=
  { stamp := 3000, translation := ⟨1, 2, 3⟩, rotation := ⟨5, 6, 7, 4⟩ }

/-- The streams `openFileStreams` opens for `scenarioMap` under `/data/bag`. -/
def scenarioFiles : StdMap OfStream :=
  [("/cam0/image".toList, ⟨"/data/bag/cam0/data.csv".toList, [cameraHeader]⟩),
    ("/imu0".toList, ⟨"/data/bag/imu0/data.csv".toList, [imuHeader]⟩)]

/-- The stream `openFileStreams` opens for `capitalTypeMap` under `/data/bag`. -/
def capitalTypeFiles : StdMap OfStream :=
  [("/imu0".toList, ⟨"/data/bag/imu0/data.csv".toList, []⟩)]

/-- The stream `openFileStreams` opens for `sharedTopicMap` under `/data/bag`. -/
def sharedTopicFiles : StdMap OfStream :=
  [("/cam/image".toList, ⟨"/data/bag/cam0/data.csv".toList, [cameraHeader]⟩)]

/-- The stream `openFileStreams` opens for `noDataDirMap` under `/data/bag`. -/
def noDataDirFiles : StdMap OfStream :=
  [("/cam0/image".toList, ⟨"/data/bag/cam0/data.csv".toList, [cameraHeader]⟩)]
/-! ## Lemmas on strings and maps -/

theorem find_first_of_slash_eq_zero (t : Str) :
    find_first_of t "/".toList = 0 ↔ ∃ u, t = '/' :: u := by
  cases t with
  | nil => simp [find_first_of, findFirstFrom, npos]
  | cons c cs =>
    by_cases hc : c = '/'
    · subst hc
      simp [find_first_of, findFirstFrom]
    · have hne : ∀ n, findFirstFrom "/".toList cs (n + 1) ≠ 0 := by
        intro n
        induction cs generalizing n with
        | nil => simp [findFirstFrom, npos]
        | cons d ds ih =>
          unfold findFirstFrom
          split
          · omega
          · exact ih (n + 1)
      have h0 := hne 0
      simp [find_first_of, findFirstFrom, hc] at h0 ⊢
      exact h0

theorem substr_one_cons (c : Char) (u : Str) (hu : u.length ≤ npos) :
    substr (c :: u) 1 npos = some u := by
  simp [substr, List.take_of_length_le hu]

theorem StdMap.find_key {V : Type} (m : StdMap V) (k : Str) (e : Str × V)
    (h : StdMap.find m k = some e) : e.1 = k := by
  induction m with
  | nil => simp [StdMap.find] at h
  | cons p rest ih =>
    obtain ⟨k', v⟩ := p
    unfold StdMap.find at h
    split at h
    · rename_i hk
      cases h
      exact hk
    · exact ih h

/-! ## Topic resolution: theorems -/

theorem resolveThreeStep_slash (m : SensorInfoMap) (u : Str) :
    resolveThreeStep m ('/' :: u) =
      match StdMap.find m ('/' :: u) with
      | some e => some e
      | none => StdMap.find m u := rfl

theorem resolveThreeStep_no_slash (m : SensorInfoMap) (t : Str) (hns : ∀ u, t ≠ '/' :: u) :
    resolveThreeStep m t =
      match StdMap.find m t with
      | some e => some e
      | none => StdMap.find m ('/' :: t) := by
  unfold resolveThreeStep
  split
  · rfl
  · split
    · exact absurd rfl (hns _)
    · rfl

theorem normalizeSeparator_no_slash (t : Str) (hns : ∀ u, t ≠ '/' :: u) :
    normalizeSeparator t = '/' :: t := by
  unfold normalizeSeparator
  split
  · exact absurd rfl (hns _)
  · rfl

theorem findTopicInMap_eq_resolve (m : SensorInfoMap) (t : Str) (ht : t.length ≤ npos) :
    findTopicInMap m t = some ((resolveThreeStep m t).isSome, resolveThreeStep m t) ∧
    isTopicInMap m t = some (resolveThreeStep m t).isSome := by
  by_cases h0 : find_first_of t "/".toList = 0
  · obtain ⟨u, rfl⟩ := (find_first_of_slash_eq_zero t).1 h0
    have hu : u.length ≤ npos := by simp at ht; omega
    rw [resolveThreeStep_slash]
    unfold findTopicInMap isTopicInMap
    simp only [h0, substr_one_cons _ u hu, if_true]
    cases StdMap.find m ('/' :: u) with
    | some e => simp
    | none => cases StdMap.find m u <;> simp
  · have hns : ∀ u, t ≠ '/' :: u := fun u hu =>
      h0 ((find_first_of_slash_eq_zero t).2 ⟨u, hu⟩)
    rw [resolveThreeStep_no_slash m t hns]
    unfold findTopicInMap isTopicInMap
    have hcat : "/".toList ++ t = '/' :: t := rfl
    simp only [h0, if_false, hcat]
    cases StdMap.find m t with
    | some e => simp
    | none => cases StdMap.find m ('/' :: t) <;> simp

/-- C1. For every topic map and every topic string (of a size a `std::string`
can have), `findTopicInMap` returns without throwing, its iterator is the result
of the three-step order (exact key; else one leading separator stripped, for a
topic that begins with one; else one separator prepended; else `end()`), its
flag tells whether an entry was found, and `isTopicInMap` returns that flag. -/
theorem findTopicInMap_three_step (m : SensorInfoMap) (t : Str) (ht : t.length ≤ npos) :
    findTopicInMap m t = some ((resolveThreeStep m t).isSome, resolveThreeStep m t) ∧
    isTopicInMap m t = some (resolveThreeStep m t).isSome :=
  findTopicInMap_eq_resolve m t ht

theorem findTopicInMap_three_step_witness :
    findTopicInMap [("/cam0/image".toList, [(NAME, "cam0".toList)])] "cam0/image".toList =
      some (true, some ("/cam0/image".toList, [(NAME, "cam0".toList)])) :=
  (findTopicInMap_three_step
    [("/cam0/image".toList, [(NAME, "cam0".toList)])] "cam0/image".toList (by decide)).1.trans rfl


theorem normalizeSeparator_length (t : Str) : (normalizeSeparator t).length ≤ t.length + 1 := by
  unfold normalizeSeparator
  split
  · simp
    omega
  · simp

/-- C3 (as amended). For a topic that does not begin with two separators,
resolving it and resolving its separator toggle give the same result exactly
when the topic and its toggle are not both keys of the map. -/
theorem findTopicInMap_normalizeSeparator_iff (m : SensorInfoMap) (t : Str)
    (ht : t.length < npos) (h2 : t.take 2 ≠ "//".toList) :
    findTopicInMap m t = findTopicInMap m (normalizeSeparator t) ↔
      ¬ ((StdMap.find m t).isSome = true ∧
          (StdMap.find m (normalizeSeparator t)).isSome = true) := by
  have hn : (normalizeSeparator t).length ≤ npos := by
    have := normalizeSeparator_length t
    omega
  rw [(findTopicInMap_eq_resolve m t (by omega)).1,
    (findTopicInMap_eq_resolve m (normalizeSeparator t) hn).1]
  by_cases hs : ∃ u, t = '/' :: u
  · obtain ⟨u, rfl⟩ := hs
    have hu : ∀ w, u ≠ '/' :: w := fun w hw => h2 (by rw [hw]; rfl)
    have hnorm : normalizeSeparator ('/' :: u) = u := rfl
    rw [hnorm, resolveThreeStep_slash, resolveThreeStep_no_slash m u hu]
    cases h1 : StdMap.find m ('/' :: u) with
    | none => cases StdMap.find m u <;> simp
    | some e1 =>
      cases h3 : StdMap.find m u with
      | none => simp
      | some e3 =>
        have k1 := StdMap.find_key m _ e1 h1
        have k3 := StdMap.find_key m _ e3 h3
        simp only [Option.isSome_some, and_self, not_true_eq_false, iff_false]
        intro h
        simp only [Option.some.injEq, Prod.mk.injEq, true_and] at h
        rw [h, k3] at k1
        simp at k1
  · have hns : ∀ u, t ≠ '/' :: u := fun u hu => hs ⟨u, hu⟩
    rw [normalizeSeparator_no_slash t hns, resolveThreeStep_slash,
      resolveThreeStep_no_slash m t hns]
    cases h1 : StdMap.find m ('/' :: t) with
    | none => cases StdMap.find m t <;> simp
    | some e1 =>
      cases h3 : StdMap.find m t with
      | none => simp
      | some e3 =>
        have k1 := StdMap.find_key m _ e1 h1
        have k3 := StdMap.find_key m _ e3 h3
        simp only [Option.isSome_some, and_self, not_true_eq_false, iff_false]
        intro h
        simp only [Option.some.injEq, Prod.mk.injEq, true_and] at h
        rw [← h, k3] at k1
        simp at k1

theorem findTopicInMap_normalizeSeparator_iff_witness :
    findTopicInMap [("/cam0/image".toList, [(NAME, "cam0".toList)])] "cam0/image".toList =
      findTopicInMap [("/cam0/image".toList, [(NAME, "cam0".toList)])]
        (normalizeSeparator "cam0/image".toList) :=
  (findTopicInMap_normalizeSeparator_iff
    [("/cam0/image".toList, [(NAME, "cam0".toList)])] "cam0/image".toList
    (by decide) (by decide)).2 (by decide)

/-- C3 (counterexample). Resolution is not invariant under the separator
toggle: a topic with two leading separators that is itself a key is found,
its toggle is not; and when a topic and its toggle are both keys, each
resolves to its own entry. -/
theorem findTopicInMap_normalizeSeparator_counterexample :
    findTopicInMap [("//a".toList, [])] "//a".toList ≠
      findTopicInMap [("//a".toList, [])] (normalizeSeparator "//a".toList) ∧
    findTopicInMap [("/a".toList, [(NAME, "x".toList)]), ("a".toList, [(NAME, "y".toList)])]
        "a".toList ≠
      findTopicInMap [("/a".toList, [(NAME, "x".toList)]), ("a".toList, [(NAME, "y".toList)])]
        (normalizeSeparator "a".toList) := by
  constructor
  · intro h
    have h' : (some (true, some ("//a".toList, [])) : Option (Bool × Option (Str × StdMap Str))) =
        some (false, none) := h
    simp at h'
  · intro h
    have h' : (some (true, some ("a".toList, [(NAME, "y".toList)])) :
        Option (Bool × Option (Str × StdMap Str))) =
        some (true, some ("/a".toList, [(NAME, "x".toList)])) := h
    simp at h'

/-! ## The output root: lemmas -/

theorem findLastFrom_append (chars a s : Str) (i best : Nat) :
    findLastFrom chars (a ++ s) i best =
      findLastFrom chars s (i + a.length) (findLastFrom chars a i best) := by
  induction a generalizing i best with
  | nil => simp [findLastFrom]
  | cons x xs ih =>
    show findLastFrom chars (xs ++ s) (i + 1) (if x ∈ chars then i else best) =
      findLastFrom chars s (i + (xs.length + 1))
        (findLastFrom chars xs (i + 1) (if x ∈ chars then i else best))
    rw [ih, Nat.add_assoc, Nat.add_comm 1]

theorem findLastFrom_none (chars s : Str) (i best : Nat) (h : ∀ c ∈ s, c ∉ chars) :
    findLastFrom chars s i best = best := by
  induction s generalizing i best with
  | nil => rfl
  | cons x xs ih =>
    have hx : x ∉ chars := h x (List.mem_cons_self _ _)
    simp only [findLastFrom, hx, if_false]
    exact ih _ _ (fun c hc => h c (List.mem_cons_of_mem _ hc))

theorem findLastFrom_range (chars s : Str) (i best : Nat) :
    findLastFrom chars s i best = best ∨
      (i ≤ findLastFrom chars s i best ∧ findLastFrom chars s i best < i + s.length) := by
  induction s generalizing i best with
  | nil => left; rfl
  | cons x xs ih =>
    simp only [findLastFrom, List.length_cons]
    rcases ih (i + 1) (if x ∈ chars then i else best) with h | h
    · rw [h]
      by_cases hx : x ∈ chars
      · right; simp [hx]
      · left; simp [hx]
    · right; omega

theorem find_last_of_split (s a b : Str) (c : Char) (hs : s = a ++ c :: b) (hb : c ∉ b) :
    find_last_of s [c] = a.length := by
  subst hs
  unfold find_last_of
  rw [findLastFrom_append]
  simp only [findLastFrom, List.mem_singleton, if_true, Nat.zero_add]
  exact findLastFrom_none _ _ _ _ (fun d hd hdc => hb (by simp at hdc; rw [← hdc]; exact hd))

theorem exists_last_occurrence (c : Char) (s : Str) (h : c ∈ s) :
    ∃ a b, s = a ++ c :: b ∧ c ∉ b := by
  induction s with
  | nil => simp at h
  | cons x xs ih =>
    by_cases hx : c ∈ xs
    · obtain ⟨a, b, hab, hb⟩ := ih hx
      exact ⟨x :: a, b, by rw [hab]; rfl, hb⟩
    · have hcx : c = x := by
        rcases List.mem_cons.1 h with h1 | h1
        · exact h1
        · exact absurd h1 hx
      exact ⟨[], xs, by rw [hcx]; rfl, hx⟩

theorem takeWhile_ne_append_cons (c : Char) (l1 l2 : Str) (h : c ∉ l1) :
    (l1 ++ c :: l2).takeWhile (fun d => d != c) = l1 ∧
    (l1 ++ c :: l2).dropWhile (fun d => d != c) = c :: l2 := by
  induction l1 with
  | nil => simp [List.takeWhile, List.dropWhile]
  | cons x xs ih =>
    have hx : x ≠ c := fun hxc => h (by rw [hxc]; exact List.mem_cons_self _ _)
    have hxs : c ∉ xs := fun hc => h (List.mem_cons_of_mem _ hc)
    obtain ⟨ih1, ih2⟩ := ih hxs
    have hne : (x != c) = true := by simp [hx]
    rw [List.cons_append, List.takeWhile_cons, List.dropWhile_cons, hne, ih1, ih2]
    simp

theorem specFileName_split (a b : Str) (hb : '/' ∉ b) :
    specFileName (a ++ '/' :: b) = b ∧ specBagDir (a ++ '/' :: b) = a ++ ['/'] := by
  have hrev : (a ++ '/' :: b).reverse = b.reverse ++ '/' :: a.reverse := by simp
  have hb' : '/' ∉ b.reverse := by simpa using hb
  obtain ⟨h1, h2⟩ := takeWhile_ne_append_cons '/' b.reverse a.reverse hb'
  unfold specFileName specBagDir
  rw [hrev, h1, h2]
  simp

theorem specStripExt_split (b1 b2 : Str) (hb : '.' ∉ b2) :
    specStripExt (b1 ++ '.' :: b2) = b1 := by
  have hrev : (b1 ++ '.' :: b2).reverse = b2.reverse ++ '.' :: b1.reverse := by simp
  have hb' : '.' ∉ b2.reverse := by simpa using hb
  obtain ⟨_, h2⟩ := takeWhile_ne_append_cons '.' b2.reverse b1.reverse hb'
  unfold specStripExt
  rw [hrev, h2]
  simp

theorem specStripExt_no_dot (b : Str) (hb : '.' ∉ b) : specStripExt b = b := by
  unfold specStripExt
  simp [hb]

theorem find_last_of_dot_before (a b : Str) (hb : '.' ∉ b) :
    find_last_of (a ++ '/' :: b) ['.'] = npos ∨ find_last_of (a ++ '/' :: b) ['.'] < a.length := by
  unfold find_last_of
  rw [findLastFrom_append]
  have hnone : ∀ c ∈ '/' :: b, c ∉ ['.'] := by
    intro c hc hcd
    simp at hcd
    subst hcd
    rcases List.mem_cons.1 hc with h1 | h1
    · exact absurd h1 (by decide)
    · exact hb h1
  rw [findLastFrom_none _ _ _ _ hnone]
  rcases findLastFrom_range ['.'] a 0 npos with h | h
  · left; exact h
  · right; omega

theorem substr_tail (a b : Str) (pos len : Nat) (hpos : pos = a.length + 1)
    (hlen : b.length ≤ len) : substr (a ++ '/' :: b) pos len = some b := by
  subst hpos
  unfold substr
  have hle : a.length + 1 ≤ (a ++ '/' :: b).length := by simp
  rw [if_pos hle]
  have hdrop : (a ++ '/' :: b).drop (a.length + 1) = b := by
    rw [show a ++ '/' :: b = (a ++ ['/']) ++ b by simp]
    exact List.drop_left' (by simp)
  rw [hdrop, List.take_of_length_le hlen]

theorem substr_head (a b : Str) (len : Nat) (hlen : len = a.length + 1) :
    substr (a ++ '/' :: b) 0 len = some (a ++ ['/']) := by
  subst hlen
  unfold substr
  simp only [Nat.zero_le, if_true, List.drop_zero]
  rw [show a ++ '/' :: b = (a ++ ['/']) ++ b by simp]
  rw [List.take_left' (by simp)]

/-- C8. For every path that contains a separator (and has a size a
`std::string` can have), `main` computes `bagname` and `bagpath` without
exiting or throwing, `bagpath` is the path up to and including its last
separator and `bagname` is the file name with its last extension removed, so
the output root is their concatenation; the cases of a dot before the last
separator and of no dot at all, where `pos_dot - pos - 1` wraps around, are
included. -/
theorem outputRoot_eq_dir_and_stem (path : Str) (hs : '/' ∈ path) (hlen : path.length < npos) :
    bagNameAndPath path = .ok (specStripExt (specFileName path), specBagDir path) ∧
    outputRoot path = .ok (specBagDir path ++ specStripExt (specFileName path)) := by
  obtain ⟨a, b, hab, hb⟩ := exists_last_occurrence '/' path hs
  have hpos : find_last_of path "/".toList = a.length := find_last_of_split path a b '/' hab hb
  obtain ⟨hfile, hdir⟩ := specFileName_split a b hb
  have hlen' : a.length + 1 + b.length < 2 ^ 64 - 1 := by
    have : path.length = a.length + 1 + b.length := by rw [hab]; simp; omega
    unfold npos at hlen
    omega
  have hadd : add64 a.length 1 = a.length + 1 := by
    unfold add64
    exact Nat.mod_eq_of_lt (by omega)
  have hbag : bagNameAndPath path =
      .ok (specStripExt (specFileName path), specBagDir path) := by
    unfold bagNameAndPath
    simp only [hpos]
    have hne : a.length ≠ npos := by unfold npos; omega
    rw [if_neg hne, hadd]
    subst hab
    rw [hfile, hdir, substr_head a b _ rfl]
    by_cases hdot : '.' ∈ b
    · obtain ⟨b1, b2, hb12, hb2⟩ := exists_last_occurrence '.' b hdot
      have hposdot : find_last_of (a ++ '/' :: b) ".".toList = a.length + 1 + b1.length := by
        have h := find_last_of_split (a ++ '/' :: b) (a ++ '/' :: b1) b2 '.'
          (by rw [hb12]; simp) hb2
        rw [show ".".toList = ['.'] from rfl, h]
        simp
        omega
      have hb1 : b.length = b1.length + 1 + b2.length := by rw [hb12]; simp; omega
      have hsub : sub64 (sub64 (a.length + 1 + b1.length) a.length) 1 = b1.length := by
        unfold sub64
        omega
      rw [hposdot, hsub]
      have htake : substr (a ++ '/' :: b) (a.length + 1) b1.length = some b1 := by
        unfold substr
        have hle : a.length + 1 ≤ (a ++ '/' :: b).length := by simp
        rw [if_pos hle]
        have hdrop : (a ++ '/' :: b).drop (a.length + 1) = b := by
          rw [show a ++ '/' :: b = (a ++ ['/']) ++ b by simp]
          exact List.drop_left' (by simp)
        rw [hdrop, hb12, List.take_left' rfl]
      rw [htake, hb12, specStripExt_split b1 b2 hb2]
    · rw [specStripExt_no_dot b hdot]
      have hlenb : b.length ≤
          sub64 (sub64 (find_last_of (a ++ '/' :: b) ".".toList) a.length) 1 := by
        rcases find_last_of_dot_before a b hdot with h | h
        · rw [show ".".toList = ['.'] from rfl, h]
          unfold sub64 npos
          omega
        · rw [show ".".toList = ['.'] from rfl]
          unfold sub64
          omega
      rw [substr_tail a b _ _ rfl hlenb]
  refine ⟨hbag, ?_⟩
  unfold outputRoot
  rw [hbag]

theorem outputRoot_eq_dir_and_stem_witness :
    outputRoot "/data/v1.0/MH_01".toList = .ok "/data/v1.0/MH_01".toList :=
  (outputRoot_eq_dir_and_stem "/data/v1.0/MH_01".toList (by decide) (by decide)).2.trans rfl

/-! ## `std::map`: lemmas -/

theorem StdMap.find_orderedInsert {V : Type} (m : StdMap V) (k : Str) (v : V) (q : Str)
    (h : StdMap.find m k = none) :
    StdMap.find (StdMap.orderedInsert k v m) q =
      if q = k then some (k, v) else StdMap.find m q := by
  induction m with
  | nil =>
    by_cases hq : q = k
    · simp [StdMap.orderedInsert, StdMap.find, hq]
    · have hq' : ¬ k = q := fun e => hq e.symm
      simp [StdMap.orderedInsert, StdMap.find, hq, hq']
  | cons p rest ih =>
    obtain ⟨k', v'⟩ := p
    have hk' : ¬ k' = k := by
      intro e
      simp [StdMap.find, e] at h
    have hrest : StdMap.find rest k = none := by
      simpa [StdMap.find, hk'] using h
    unfold StdMap.orderedInsert
    by_cases hlt : strLt k k' = true
    · rw [if_pos hlt]
      by_cases hq : q = k
      · simp [StdMap.find, hq]
      · have hq' : ¬ k = q := fun e => hq e.symm
        rw [if_neg hq]
        conv_lhs => unfold StdMap.find
        rw [if_neg hq']
    · rw [if_neg hlt]
      conv_lhs => unfold StdMap.find
      rw [ih hrest]
      by_cases hkq : k' = q
      · have hq : ¬ q = k := fun e => hk' (hkq.trans e)
        simp [StdMap.find, hkq, hq]
      · conv_rhs => unfold StdMap.find
        simp [hkq]

theorem StdMap.find_insert {V : Type} (m : StdMap V) (k : Str) (v : V) (q : Str) :
    StdMap.find (StdMap.insert m k v) q =
      match StdMap.find m k with
      | some _ => StdMap.find m q
      | none => if q = k then some (k, v) else StdMap.find m q := by
  unfold StdMap.insert
  cases h : StdMap.find m k with
  | some e => rfl
  | none => exact StdMap.find_orderedInsert m k v q h

theorem StdMap.index_fst {V : Type} [Inhabited V] (m : StdMap V) (k : Str) :
    (StdMap.index m k).1 = match StdMap.find m k with
      | some e => e.2
      | none => default := by
  unfold StdMap.index
  cases StdMap.find m k <;> rfl

theorem StdMap.index_snd_of_isSome {V : Type} [Inhabited V] (m : StdMap V) (k : Str)
    (h : (StdMap.find m k).isSome = true) : (StdMap.index m k).2 = m := by
  unfold StdMap.index
  cases hf : StdMap.find m k with
  | some e => rfl
  | none => simp [hf] at h

theorem StdMap.find_index_snd {V : Type} [Inhabited V] (m : StdMap V) (k q : Str)
    (hq : q ≠ k) : StdMap.find (StdMap.index m k).2 q = StdMap.find m q := by
  unfold StdMap.index
  cases hf : StdMap.find m k with
  | some e => rfl
  | none =>
    show StdMap.find (StdMap.orderedInsert k default m) q = StdMap.find m q
    rw [StdMap.find_orderedInsert m k default q hf, if_neg hq]

theorem StdMap.find_modify {V : Type} (f : V → V) (m : StdMap V) (k q : Str) :
    StdMap.find (StdMap.modify f k m) q =
      if q = k then (StdMap.find m k).map (fun e => (e.1, f e.2)) else StdMap.find m q := by
  induction m with
  | nil => simp [StdMap.modify, StdMap.find]
  | cons p rest ih =>
    obtain ⟨k', v⟩ := p
    unfold StdMap.modify
    by_cases hk : k' = k
    · subst hk
      rw [if_pos rfl]
      by_cases hq : q = k'
      · subst hq
        simp [StdMap.find]
      · have hq' : ¬ k' = q := fun e => hq e.symm
        simp [StdMap.find, hq, hq']
    · rw [if_neg hk]
      by_cases hq : q = k
      · subst hq
        simp only [StdMap.find, hk, if_false, if_true] at ih ⊢
        exact ih
      · simp only [hq, if_false] at ih ⊢
        unfold StdMap.find
        rw [ih]

theorem StdMap.find_eq_none_iff {V : Type} (m : StdMap V) (k : Str) :
    StdMap.find m k = none ↔ k ∉ StdMap.keys m := by
  induction m with
  | nil => simp [StdMap.find, StdMap.keys]
  | cons p rest ih =>
    obtain ⟨k', v⟩ := p
    have hkeys : StdMap.keys ((k', v) :: rest) = k' :: StdMap.keys rest := rfl
    rw [hkeys, List.mem_cons]
    unfold StdMap.find
    by_cases hk : k' = k
    · rw [if_pos hk]
      constructor
      · intro h
        cases h
      · intro h
        exact absurd (Or.inl hk.symm) h
    · rw [if_neg hk, ih]
      constructor
      · intro h h'
        rcases h' with h' | h'
        · exact hk h'.symm
        · exact h h'
      · intro h h'
        exact h (Or.inr h')

theorem StdMap.keys_orderedInsert_perm {V : Type} (m : StdMap V) (k : Str) (v : V) :
    (StdMap.keys (StdMap.orderedInsert k v m)).Perm (k :: StdMap.keys m) := by
  induction m with
  | nil => simp [StdMap.orderedInsert, StdMap.keys]
  | cons p rest ih =>
    obtain ⟨k', v'⟩ := p
    unfold StdMap.orderedInsert
    by_cases hlt : strLt k k' = true
    · rw [if_pos hlt]
      simp [StdMap.keys]
    · rw [if_neg hlt]
      have h1 : StdMap.keys ((k', v') :: StdMap.orderedInsert k v rest) =
          k' :: StdMap.keys (StdMap.orderedInsert k v rest) := rfl
      have h2 : StdMap.keys ((k', v') :: rest) = k' :: StdMap.keys rest := rfl
      rw [h1, h2]
      exact ((List.Perm.cons k' ih).trans (List.Perm.swap k k' _))

theorem StdMap.keys_insert_nodup {V : Type} (m : StdMap V) (k : Str) (v : V)
    (h : (StdMap.keys m).Nodup) : (StdMap.keys (StdMap.insert m k v)).Nodup := by
  unfold StdMap.insert
  cases hf : StdMap.find m k with
  | some e => exact h
  | none =>
    have hk : k ∉ StdMap.keys m := (StdMap.find_eq_none_iff m k).1 hf
    exact (StdMap.keys_orderedInsert_perm m k v).nodup_iff.2 (List.nodup_cons.2 ⟨hk, h⟩)

/-! ## The sensor configuration: lemmas -/

/-- The entry `sensorInfo` builds for a sensor, written out. -/
theorem sensorEntry_eq (sensor csv_filename : Str) (p : StdMap Str) :
    sensorEntry sensor csv_filename p =
      (paramValue p TOPIC,
        match StdMap.find p DATADIR with
        | some d =>
          [(DATADIR, sensor ++ "/".toList ++ d.2), (CSVFILE, sensor ++ "/".toList ++ csv_filename),
            (NAME, sensor), (SENSOR_TYPE, paramValue p SENSOR_TYPE)]
        | none =>
          [(CSVFILE, sensor ++ "/".toList ++ csv_filename), (NAME, sensor),
            (SENSOR_TYPE, paramValue p SENSOR_TYPE)]) := by
  have hdt : DATADIR ≠ TOPIC := by decide
  have htt : SENSOR_TYPE ≠ TOPIC := by decide
  have htd : SENSOR_TYPE ≠ DATADIR := by decide
  have h1 : StdMap.find (StdMap.index p TOPIC).2 DATADIR = StdMap.find p DATADIR :=
    StdMap.find_index_snd p TOPIC DATADIR hdt
  have h2 : StdMap.find (StdMap.index p TOPIC).2 SENSOR_TYPE = StdMap.find p SENSOR_TYPE :=
    StdMap.find_index_snd p TOPIC SENSOR_TYPE htt
  unfold sensorEntry
  simp only [h1]
  cases hd : StdMap.find p DATADIR with
  | none =>
    simp only [Option.isSome_none, Bool.false_eq_true, if_false]
    have h3 : (StdMap.index (StdMap.index p TOPIC).2 SENSOR_TYPE).1 = paramValue p SENSOR_TYPE := by
      unfold paramValue
      rw [StdMap.index_fst, StdMap.index_fst, h2]
    rw [h3]
    rfl
  | some d =>
    simp only [Option.isSome_some, if_true]
    have h4 : (StdMap.index (StdMap.index p TOPIC).2 DATADIR).1 = d.2 := by
      rw [StdMap.index_fst, h1, hd]
    have h5 : StdMap.find (StdMap.index (StdMap.index p TOPIC).2 DATADIR).2 SENSOR_TYPE =
        StdMap.find p SENSOR_TYPE := by
      rw [StdMap.find_index_snd _ DATADIR SENSOR_TYPE htd, h2]
    have h3 : (StdMap.index (StdMap.index (StdMap.index p TOPIC).2 DATADIR).2 SENSOR_TYPE).1 =
        paramValue p SENSOR_TYPE := by
      unfold paramValue
      rw [StdMap.index_fst, StdMap.index_fst, h5]
    rw [h3, h4]
    rfl

theorem sensorInfoLoop_cons_none (nh : NodeHandle) (csv s : Str) (rest : List Str)
    (acc : SensorInfoMap) (h : nh.getParamMap (INFO ++ "/".toList ++ s) = none) :
    sensorInfoLoop nh csv (s :: rest) acc =
      .error (.exit (missingMessage (INFO ++ "/".toList ++ s))) := by
  unfold sensorInfoLoop
  simp only [h]

theorem sensorInfoLoop_cons_some (nh : NodeHandle) (csv s : Str) (rest : List Str)
    (acc : SensorInfoMap) (p : StdMap Str)
    (h : nh.getParamMap (INFO ++ "/".toList ++ s) = some p) :
    sensorInfoLoop nh csv (s :: rest) acc =
      sensorInfoLoop nh csv rest
        (StdMap.insert acc (sensorEntry s csv p).1 (sensorEntry s csv p).2) := by
  conv_lhs => unfold sensorInfoLoop
  simp only [h]

theorem sensorInfoLoop_ok (nh : NodeHandle) (csv : Str) (l : List Str) (acc : SensorInfoMap)
    (h : ∀ s ∈ l, (nh.getParamMap (INFO ++ "/".toList ++ s)).isSome = true) :
    ∃ m, sensorInfoLoop nh csv l acc = .ok m := by
  induction l generalizing acc with
  | nil => exact ⟨acc, rfl⟩
  | cons s rest ih =>
    have hs := h s (List.mem_cons_self _ _)
    obtain ⟨p, hp⟩ := Option.isSome_iff_exists.1 hs
    rw [sensorInfoLoop_cons_some nh csv s rest acc p hp]
    exact ih _ (fun s' hs' => h s' (List.mem_cons_of_mem _ hs'))

theorem sensorInfoLoop_error (nh : NodeHandle) (csv : Str) (l : List Str) (acc : SensorInfoMap)
    (h : ¬ ∀ s ∈ l, (nh.getParamMap (INFO ++ "/".toList ++ s)).isSome = true) :
    ∃ s ∈ l, nh.getParamMap (INFO ++ "/".toList ++ s) = none ∧
      sensorInfoLoop nh csv l acc = .error (.exit (missingMessage (INFO ++ "/".toList ++ s))) := by
  induction l generalizing acc with
  | nil => exact absurd (fun s hs => by cases hs) h
  | cons s rest ih =>
    cases hp : nh.getParamMap (INFO ++ "/".toList ++ s) with
    | none =>
      exact ⟨s, List.mem_cons_self _ _, hp, sensorInfoLoop_cons_none nh csv s rest acc hp⟩
    | some p =>
      rw [sensorInfoLoop_cons_some nh csv s rest acc p hp]
      have hrest : ¬ ∀ s' ∈ rest, (nh.getParamMap (INFO ++ "/".toList ++ s')).isSome = true := by
        intro hall
        apply h
        intro s' hs'
        rcases List.mem_cons.1 hs' with e | e
        · rw [e, hp]; rfl
        · exact hall s' e
      obtain ⟨s', hs', hn, he⟩ := ih (StdMap.insert acc (sensorEntry s csv p).1 (sensorEntry s csv p).2) hrest
      exact ⟨s', List.mem_cons_of_mem _ hs', hn, he⟩

/-- C4 (as amended). `sensorInfo` returns a sensor map exactly when the sensor
list and the CSV file name are present and every listed sensor has its
parameter block; otherwise it exits with a diagnostic and returns no map. A
missing `topic` or `type` inside a parameter block is not checked. -/
theorem sensorInfo_ok_iff_checked (nh : NodeHandle) :
    ((∃ m, sensorInfo nh = .ok m) ↔ configChecked nh = true) ∧
    ((∃ d, sensorInfo nh = .error (.exit d)) ↔ configChecked nh = false) := by
  unfold sensorInfo configChecked
  cases hl : nh.getParamList SENSOR_LIST with
  | none => simp
  | some l =>
    cases hc : nh.getParamString CSVFILE with
    | none => simp
    | some csv =>
      simp only [List.all_eq_true]
      by_cases hall : ∀ s ∈ l, (nh.getParamMap (INFO ++ "/".toList ++ s)).isSome = true
      · obtain ⟨m, hm⟩ := sensorInfoLoop_ok nh csv l [] hall
        rw [hm]
        constructor
        · exact ⟨fun _ => hall, fun _ => ⟨m, rfl⟩⟩
        · constructor
          · rintro ⟨d, hd⟩
            cases hd
          · intro hn
            rw [← Bool.not_eq_true, List.all_eq_true] at hn
            exact absurd hall hn
      · obtain ⟨s, _, _, he⟩ := sensorInfoLoop_error nh csv l [] hall
        rw [he]
        constructor
        · constructor
          · rintro ⟨m, hm⟩
            cases hm
          · intro hall'
            exact absurd hall' hall
        · constructor
          · intro _
            rw [← Bool.not_eq_true, List.all_eq_true]
            exact hall
          · intro _
            exact ⟨_, rfl⟩

/-- C4 (counterexample). A configuration whose sensor has neither `topic` nor
`type` is not one the specification accepts, yet `sensorInfo` returns an entry
for it, filed under the empty topic with the empty type. -/
theorem sensorInfo_accepts_missing_topic_and_type :
    configRequired untypedConfig = false ∧
    sensorInfo untypedConfig = .ok [([], [(DATADIR, "cam0/data".toList),
      (CSVFILE, "cam0/data.csv".toList), (NAME, "cam0".toList), (SENSOR_TYPE, [])])] :=
  ⟨rfl, rfl⟩

theorem sensorInfoLoop_find (nh : NodeHandle) (csv : Str) (l : List Str)
    (acc m : SensorInfoMap) (h : sensorInfoLoop nh csv l acc = .ok m)
    (q : Str) (e : Str × StdMap Str) (hq : StdMap.find m q = some e) :
    StdMap.find acc q = some e ∨ FromSensor nh csv l e := by
  induction l generalizing acc with
  | nil =>
    have : acc = m := by
      have h' : (Except.ok acc : Except Failure SensorInfoMap) = .ok m := h
      cases h'
      rfl
    subst this
    exact Or.inl hq
  | cons s rest ih =>
    cases hp : nh.getParamMap (INFO ++ "/".toList ++ s) with
    | none =>
      rw [sensorInfoLoop_cons_none nh csv s rest acc hp] at h
      cases h
    | some p =>
      rw [sensorInfoLoop_cons_some nh csv s rest acc p hp] at h
      rcases ih _ h with h1 | ⟨s', hs', p', hp', he⟩
      · rw [StdMap.find_insert] at h1
        cases hk : StdMap.find acc (sensorEntry s csv p).1 with
        | some x =>
          rw [hk] at h1
          exact Or.inl h1
        | none =>
          rw [hk] at h1
          by_cases hqk : q = (sensorEntry s csv p).1
          · rw [if_pos hqk] at h1
            right
            refine ⟨s, List.mem_cons_self _ _, p, hp, ?_⟩
            cases h1
            rfl
          · rw [if_neg hqk] at h1
            exact Or.inl h1
      · exact Or.inr ⟨s', List.mem_cons_of_mem _ hs', p', hp', he⟩

theorem sensorInfoLoop_mono (nh : NodeHandle) (csv : Str) (l : List Str)
    (acc m : SensorInfoMap) (h : sensorInfoLoop nh csv l acc = .ok m)
    (q : Str) (e : Str × StdMap Str) (hq : StdMap.find acc q = some e) :
    StdMap.find m q = some e := by
  induction l generalizing acc with
  | nil =>
    have h' : (Except.ok acc : Except Failure SensorInfoMap) = .ok m := h
    cases h'
    exact hq
  | cons s rest ih =>
    cases hp : nh.getParamMap (INFO ++ "/".toList ++ s) with
    | none =>
      rw [sensorInfoLoop_cons_none nh csv s rest acc hp] at h
      cases h
    | some p =>
      rw [sensorInfoLoop_cons_some nh csv s rest acc p hp] at h
      apply ih _ h
      rw [StdMap.find_insert]
      cases hk : StdMap.find acc (sensorEntry s csv p).1 with
      | some x => exact hq
      | none =>
        have hne : q ≠ (sensorEntry s csv p).1 := by
          intro e'
          rw [e', hk] at hq
          cases hq
        simp only [if_neg hne]
        exact hq

theorem sensorInfoLoop_nodup (nh : NodeHandle) (csv : Str) (l : List Str)
    (acc m : SensorInfoMap) (h : sensorInfoLoop nh csv l acc = .ok m)
    (hacc : (StdMap.keys acc).Nodup) : (StdMap.keys m).Nodup := by
  induction l generalizing acc with
  | nil =>
    have h' : (Except.ok acc : Except Failure SensorInfoMap) = .ok m := h
    cases h'
    exact hacc
  | cons s rest ih =>
    cases hp : nh.getParamMap (INFO ++ "/".toList ++ s) with
    | none =>
      rw [sensorInfoLoop_cons_none nh csv s rest acc hp] at h
      cases h
    | some p =>
      rw [sensorInfoLoop_cons_some nh csv s rest acc p hp] at h
      exact ih _ h (StdMap.keys_insert_nodup acc _ _ hacc)

theorem sensorTopic_eq (nh : NodeHandle) (csv s : Str) (p : StdMap Str)
    (hp : nh.getParamMap (INFO ++ "/".toList ++ s) = some p) :
    (sensorEntry s csv p).1 = sensorTopic nh s := by
  rw [sensorEntry_eq]
  unfold sensorTopic sensorParams
  rw [hp]
  rfl

/-- The first listed sensor of a topic owns the entry under that topic. -/
theorem sensorInfoLoop_complete (nh : NodeHandle) (csv : Str) (l : List Str)
    (acc m : SensorInfoMap) (h : sensorInfoLoop nh csv l acc = .ok m)
    (s : Str) (hs : s ∈ l) (p : StdMap Str)
    (hp : nh.getParamMap (INFO ++ "/".toList ++ s) = some p)
    (huniq : ∀ s' ∈ l, sensorTopic nh s' = sensorTopic nh s → s' = s)
    (hacc : StdMap.find acc (sensorTopic nh s) = none) :
    StdMap.find m (sensorTopic nh s) = some (sensorEntry s csv p) := by
  induction l generalizing acc with
  | nil => cases hs
  | cons x rest ih =>
    cases hx : nh.getParamMap (INFO ++ "/".toList ++ x) with
    | none =>
      rw [sensorInfoLoop_cons_none nh csv x rest acc hx] at h
      cases h
    | some px =>
      rw [sensorInfoLoop_cons_some nh csv x rest acc px hx] at h
      by_cases hxs : x = s
      · subst hxs
        have hpx : px = p := by
          rw [hx] at hp
          cases hp
          rfl
        subst hpx
        apply sensorInfoLoop_mono nh csv rest _ m h
        rw [StdMap.find_insert, sensorTopic_eq nh csv x px hx, hacc]
        simp only [if_true]
        rw [← sensorTopic_eq nh csv x px hx]
      · have hsr : s ∈ rest := by
          rcases List.mem_cons.1 hs with e | e
          · exact absurd e.symm hxs
          · exact e
        have hne : sensorTopic nh s ≠ sensorTopic nh x := fun e =>
          hxs (huniq x (List.mem_cons_self _ _) e.symm)
        apply ih _ h hsr (fun s' hs' => huniq s' (List.mem_cons_of_mem _ hs'))
        rw [StdMap.find_insert, sensorTopic_eq nh csv x px hx]
        cases hk : StdMap.find acc (sensorTopic nh x) with
        | some y => exact hacc
        | none =>
          simp only [if_neg hne]
          exact hacc

/-! ## Opening the streams: lemmas -/

theorem openFileStreamsLoop_cons (root : Str) (it : Str × StdMap Str)
    (rest : List (Str × StdMap Str)) (acc : StdMap OfStream) :
    openFileStreamsLoop root (it :: rest) acc =
      ((openFileStreamsLoop root rest (StdMap.insert acc it.1
          { path := root ++ "/".toList ++ paramValue it.2 CSVFILE, lines := [] })).1,
        (it.1, (StdMap.index it.2 CSVFILE).2) ::
          (openFileStreamsLoop root rest (StdMap.insert acc it.1
            { path := root ++ "/".toList ++ paramValue it.2 CSVFILE, lines := [] })).2) := rfl

theorem openFileStreamsLoop_find (root : Str) (info : List (Str × StdMap Str))
    (acc : StdMap OfStream) (q : Str) :
    StdMap.find (openFileStreamsLoop root info acc).1 q =
      match StdMap.find acc q with
      | some x => some x
      | none => (StdMap.find info q).map (fun e =>
          (e.1, { path := root ++ "/".toList ++ paramValue e.2 CSVFILE, lines := [] })) := by
  induction info generalizing acc with
  | nil =>
    show StdMap.find acc q = _
    cases StdMap.find acc q <;> rfl
  | cons it rest ih =>
    obtain ⟨k, e⟩ := it
    rw [openFileStreamsLoop_cons]
    simp only []
    rw [ih, StdMap.find_insert]
    cases hk : StdMap.find acc k with
    | some x =>
      simp only []
      cases hq : StdMap.find acc q with
      | some y => rfl
      | none =>
        have hne : ¬ k = q := by
          intro e'
          rw [e', hq] at hk
          cases hk
        simp only [StdMap.find, if_neg hne]
    | none =>
      simp only []
      by_cases hqk : q = k
      · subst hqk
        simp [hk, StdMap.find]
      · have hne : ¬ k = q := fun e' => hqk e'.symm
        simp only [if_neg hqk, StdMap.find, if_neg hne]

theorem openFileStreamsLoop_info (root : Str) (info : List (Str × StdMap Str))
    (acc : StdMap OfStream)
    (h : ∀ e ∈ info, (StdMap.find e.2 CSVFILE).isSome = true) :
    (openFileStreamsLoop root info acc).2 = info := by
  induction info generalizing acc with
  | nil => rfl
  | cons it rest ih =>
    rw [openFileStreamsLoop_cons]
    simp only []
    rw [ih _ (fun e he => h e (List.mem_cons_of_mem _ he)),
      StdMap.index_snd_of_isSome _ _ (h it (List.mem_cons_self _ _))]

theorem writeCSVHeaders_cons (files : StdMap OfStream) (it : Str × StdMap Str)
    (rest : List (Str × StdMap Str)) :
    writeCSVHeaders files (it :: rest) =
      match headerLine (paramValue it.2 SENSOR_TYPE) with
      | some h =>
        (match writeThrough files it.1 (fun file => file.writeLine h) with
          | none => none
          | some files => writeCSVHeaders files rest)
      | none => writeCSVHeaders files rest := by
  conv_lhs => unfold writeCSVHeaders
  unfold headerLine paramValue
  simp only []
  by_cases h1 : (StdMap.index it.2 SENSOR_TYPE).1 = CAMERA
  · simp only [h1, if_true]
    rfl
  · by_cases h2 : (StdMap.index it.2 SENSOR_TYPE).1 = IMU
    · simp only [h1, h2, if_true, if_false]
      rfl
    · by_cases h3 : (StdMap.index it.2 SENSOR_TYPE).1 = VICON
      · simp only [h1, h2, h3, if_true, if_false]
        rfl
      · simp only [h1, h2, h3, if_false]

theorem writeCSVHeaders_spec (info : List (Str × StdMap Str)) (files : StdMap OfStream)
    (hnd : (StdMap.keys info).Nodup)
    (hfiles : ∀ k ∈ StdMap.keys info, (StdMap.find files k).isSome = true) :
    ∃ files', writeCSVHeaders files info = some files' ∧
      ∀ q, StdMap.find files' q = (StdMap.find files q).map (fun f =>
        (f.1, match StdMap.find info q with
          | some e => withHeader (paramValue e.2 SENSOR_TYPE) f.2
          | none => f.2)) := by
  induction info generalizing files with
  | nil =>
    refine ⟨files, rfl, fun q => ?_⟩
    cases StdMap.find files q <;> rfl
  | cons it rest ih =>
    obtain ⟨k, e⟩ := it
    have hkeys : StdMap.keys ((k, e) :: rest) = k :: StdMap.keys rest := rfl
    rw [hkeys] at hnd hfiles
    obtain ⟨hk, hrest⟩ := List.nodup_cons.1 hnd
    have hfk := hfiles k (List.mem_cons_self _ _)
    obtain ⟨fk, hfk'⟩ := Option.isSome_iff_exists.1 hfk
    have hrk : StdMap.find rest k = none := (StdMap.find_eq_none_iff rest k).2 hk
    rw [writeCSVHeaders_cons]
    simp only []
    cases hh : headerLine (paramValue e SENSOR_TYPE) with
    | none =>
      simp only []
      obtain ⟨files', hw, hf⟩ := ih files hrest
        (fun k' hk' => hfiles k' (List.mem_cons_of_mem _ hk'))
      refine ⟨files', hw, fun q => ?_⟩
      rw [hf q]
      by_cases hqk : q = k
      · subst hqk
        simp [StdMap.find, hrk, withHeader, hh]
      · have hne : ¬ k = q := fun e' => hqk e'.symm
        simp only [StdMap.find, if_neg hne]
    | some h =>
      simp only [writeThrough, hfk']
      have hfiles' : ∀ k' ∈ StdMap.keys rest,
          (StdMap.find (StdMap.modify (fun file => file.writeLine h) k files) k').isSome = true := by
        intro k' hk'
        rw [StdMap.find_modify]
        by_cases hkk : k' = k
        · simp [hkk, hfk']
        · rw [if_neg hkk]
          exact hfiles k' (List.mem_cons_of_mem _ hk')
      obtain ⟨files', hw, hf⟩ := ih _ hrest hfiles'
      refine ⟨files', hw, fun q => ?_⟩
      rw [hf q, StdMap.find_modify]
      by_cases hqk : q = k
      · subst hqk
        simp [StdMap.find, hrk, withHeader, hh, hfk']
      · have hne : ¬ k = q := fun e' => hqk e'.symm
        simp only [StdMap.find, if_neg hne, if_neg hqk]

/-! ## The streaming loop: lemmas -/

theorem appendLines_nil (x : Option (Str × OfStream)) : x.map (appendLines []) = x := by
  cases x with
  | none => rfl
  | some f => simp [appendLines]

theorem appendLines_append (a b : List Str) (x : Option (Str × OfStream)) :
    (x.map (appendLines a)).map (appendLines b) = x.map (appendLines (a ++ b)) := by
  cases x with
  | none => rfl
  | some f => simp [appendLines]

theorem findTopicInMap_some_find (m : SensorInfoMap) (t : Str) (flag : Bool)
    (e : Str × StdMap Str) (h : findTopicInMap m t = some (flag, some e)) :
    StdMap.find m e.1 = some e := by
  have key : ∀ k, StdMap.find m k = some e → StdMap.find m e.1 = some e := by
    intro k hk
    rw [StdMap.find_key m k e hk]
    exact hk
  unfold findTopicInMap at h
  cases h1 : StdMap.find m t with
  | some e1 =>
    rw [h1] at h
    simp only [Option.some.injEq, Prod.mk.injEq] at h
    have h' := h.2
    subst h'
    exact key t h1
  | none =>
    rw [h1] at h
    simp only [] at h
    split at h
    · split at h
      · cases h
      · rename_i stripped _
        cases h2 : StdMap.find m stripped with
        | some e2 =>
          rw [h2] at h
          simp only [Option.some.injEq, Prod.mk.injEq] at h
          have h' := h.2
          subst h'
          exact key _ h2
        | none =>
          rw [h2] at h
          simp at h
    · cases h2 : StdMap.find m ("/".toList ++ t) with
      | some e2 =>
        rw [h2] at h
        simp only [Option.some.injEq, Prod.mk.injEq] at h
        have h' := h.2
        subst h'
        exact key _ h2
      | none =>
        rw [h2] at h
        simp at h

theorem headerLine_isSome (ty : Str) :
    (headerLine ty).isSome = true ↔ ty = CAMERA ∨ ty = IMU ∨ ty = VICON := by
  unfold headerLine
  by_cases h1 : ty = CAMERA
  · simp [h1]
  · by_cases h2 : ty = IMU
    · rw [if_neg h1, if_pos h2]
      simp [h2]
    · by_cases h3 : ty = VICON
      · rw [if_neg h1, if_neg h2, if_pos h3]
        simp [h3]
      · simp [h1, h2, h3]

theorem writeThrough_find (files : StdMap OfStream) (key : Str) (line : Str)
    (h : (StdMap.find files key).isSome = true) :
    ∃ files', writeThrough files key (fun file => file.writeLine line) = some files' ∧
      ∀ q, StdMap.find files' q =
        (StdMap.find files q).map (appendLines (if key = q then [line] else [])) := by
  obtain ⟨f, hf⟩ := Option.isSome_iff_exists.1 h
  refine ⟨StdMap.modify (fun file => file.writeLine line) key files, ?_, fun q => ?_⟩
  · simp [writeThrough, hf]
  · rw [StdMap.find_modify]
    by_cases hq : q = key
    · subst hq
      simp [hf, appendLines, OfStream.writeLine]
    · have hq' : ¬ key = q := fun e => hq e.symm
      rw [if_neg hq, if_neg hq', appendLines_nil]

theorem cameraBlock_spec {D : Type} (bagpath bagname : Str) (e : Str × StdMap Str)
    (st : RunState) (r : MessageInstance D) (image : Image) (dd : Str × Str)
    (hs : (StdMap.find st.topic2file e.1).isSome = true)
    (himg : r.instantiateImage = some image) (hdd : StdMap.find e.2 DATADIR = some dd) :
    ∃ st', cameraBlock bagpath bagname e st r = some st' ∧ st'.counter = st.counter ∧
      st'.imwrite = st.imwrite ++ [bagpath ++ bagname ++ "/".toList ++ dd.2 ++ "/".toList ++
        showUInt image.stamp ++ ".png".toList] ∧
      ∀ q, StdMap.find st'.topic2file q = (StdMap.find st.topic2file q).map
        (appendLines (if e.1 = q then [cameraLine image.stamp] else [])) := by
  obtain ⟨files', hw, hf⟩ := writeThrough_find st.topic2file e.1 (cameraLine image.stamp) hs
  have hw' : writeThrough st.topic2file e.1 (fun file => writeCSVCamera file image.stamp) =
      some files' := hw
  unfold cameraBlock
  simp only [himg, hdd, hw']
  exact ⟨_, rfl, rfl, rfl, hf⟩

theorem imuBlock_spec {D : Type} (showDouble : D → Str) (e : Str × StdMap Str)
    (st : RunState) (r : MessageInstance D) (imu : Imu D)
    (hs : (StdMap.find st.topic2file e.1).isSome = true)
    (himu : r.instantiateImu = some imu) :
    ∃ st', imuBlock showDouble e st r = some st' ∧ st'.counter = st.counter ∧
      st'.imwrite = st.imwrite ∧
      ∀ q, StdMap.find st'.topic2file q = (StdMap.find st.topic2file q).map
        (appendLines (if e.1 = q then [imuLine showDouble imu] else [])) := by
  obtain ⟨files', hw, hf⟩ := writeThrough_find st.topic2file e.1 (imuLine showDouble imu) hs
  have hw' : writeThrough st.topic2file e.1 (fun file => writeCSVImu showDouble file imu) =
      some files' := hw
  unfold imuBlock
  simp only [himu, hw']
  exact ⟨_, rfl, rfl, rfl, hf⟩

theorem viconBlock_spec {D : Type} (showDouble : D → Str) (e : Str × StdMap Str)
    (st : RunState) (r : MessageInstance D) (vicon : TransformStamped D)
    (hs : (StdMap.find st.topic2file e.1).isSome = true)
    (hv : r.instantiateTransform = some vicon) :
    ∃ st', viconBlock showDouble e st r = some st' ∧ st'.counter = st.counter ∧
      st'.imwrite = st.imwrite ∧
      ∀ q, StdMap.find st'.topic2file q = (StdMap.find st.topic2file q).map
        (appendLines (if e.1 = q then [viconLine showDouble vicon] else [])) := by
  obtain ⟨files', hw, hf⟩ := writeThrough_find st.topic2file e.1 (viconLine showDouble vicon) hs
  have hw' : writeThrough st.topic2file e.1 (fun file => writeCSVVicon showDouble file vicon) =
      some files' := hw
  unfold viconBlock
  simp only [hv, hw']
  exact ⟨_, rfl, rfl, rfl, hf⟩

theorem instantiateImage_msg {D : Type} (r : MessageInstance D) (image : Image)
    (h : r.instantiateImage = some image) : r.msg = .image image := by
  unfold MessageInstance.instantiateImage at h
  split at h
  · rename_i m hm
    cases h
    exact hm
  · cases h

theorem instantiateImu_msg {D : Type} (r : MessageInstance D) (imu : Imu D)
    (h : r.instantiateImu = some imu) : r.msg = .imu imu := by
  unfold MessageInstance.instantiateImu at h
  split at h
  · rename_i m hm
    cases h
    exact hm
  · cases h

theorem instantiateTransform_msg {D : Type} (r : MessageInstance D) (t : TransformStamped D)
    (h : r.instantiateTransform = some t) : r.msg = .transform t := by
  unfold MessageInstance.instantiateTransform at h
  split at h
  · rename_i m hm
    cases h
    exact hm
  · cases h

/-- The loop body in the resolved case, by the type of the entry. -/
theorem mainLoopBody_resolved {D : Type} (showDouble : D → Str) (bagpath bagname : Str)
    (m : SensorInfoMap) (st : RunState) (r : MessageInstance D) (flag : Bool)
    (e : Str × StdMap Str) (ty : Str × Str)
    (hf : findTopicInMap m r.topic = some (flag, some e))
    (hty : StdMap.find e.2 SENSOR_TYPE = some ty) :
    mainLoopBody showDouble bagpath bagname m st r =
      if ty.2 = CAMERA then
        (cameraBlock bagpath bagname e st r).map
          (fun s => { s with counter := counterIncrement s.counter })
      else if ty.2 = IMU then
        (imuBlock showDouble e st r).map
          (fun s => { s with counter := counterIncrement s.counter })
      else if ty.2 = VICON then
        (viconBlock showDouble e st r).map
          (fun s => { s with counter := counterIncrement s.counter })
      else some { st with counter := counterIncrement st.counter } := by
  have hci : CAMERA ≠ IMU := by decide
  have hcv : CAMERA ≠ VICON := by decide
  have hiv : IMU ≠ VICON := by decide
  unfold mainLoopBody
  simp only [hf, hty]
  by_cases h1 : ty.2 = CAMERA
  · have h2 : ¬ ty.2 = IMU := fun h => hci (h1.symm.trans h)
    have h3 : ¬ ty.2 = VICON := fun h => hcv (h1.symm.trans h)
    simp only [h1, if_true] at h2 h3 ⊢
    simp only [if_neg h2, if_neg h3]
    cases cameraBlock bagpath bagname e st r <;> rfl
  · by_cases h2 : ty.2 = IMU
    · have h3 : ¬ ty.2 = VICON := fun h => hiv (h2.symm.trans h)
      simp only [if_neg h1, if_pos h2, if_neg h3]
      cases imuBlock showDouble e st r <;> rfl
    · by_cases h3 : ty.2 = VICON
      · simp only [if_neg h1, if_neg h2, if_pos h3]
        cases viconBlock showDouble e st r <;> rfl
      · simp only [if_neg h1, if_neg h2, if_neg h3]

theorem mainLoopBody_spec {D : Type} (showDouble : D → Str) (bagpath bagname : Str)
    (m : SensorInfoMap) (st : RunState) (r : MessageInstance D)
    (hsinks : ∀ q e, StdMap.find m q = some e → (StdMap.find st.topic2file q).isSome = true)
    (htypes : ∀ q e, StdMap.find m q = some e → (StdMap.find e.2 SENSOR_TYPE).isSome = true)
    (hd : dispatchable m r = true) :
    ∃ st', mainLoopBody showDouble bagpath bagname m st r = some st' ∧
      st'.counter = counterIncrement st.counter ∧
      ∀ q, StdMap.find st'.topic2file q = (StdMap.find st.topic2file q).map
        (appendLines (routedLine showDouble m q r).toList) := by
  cases hf : findTopicInMap m r.topic with
  | none => simp [dispatchable, hf] at hd
  | some res =>
    obtain ⟨flag, it⟩ := res
    cases it with
    | none =>
      refine ⟨{ st with counter := counterIncrement st.counter }, ?_, rfl, fun q => ?_⟩
      · unfold mainLoopBody
        simp only [hf]
      · simp only [routedLine, hf, Option.toList, appendLines_nil]
    | some e =>
      have hfind := findTopicInMap_some_find m r.topic flag e hf
      obtain ⟨ty, hty⟩ := Option.isSome_iff_exists.1 (htypes e.1 e hfind)
      have hs := hsinks e.1 e hfind
      have hpv : paramValue e.2 SENSOR_TYPE = ty.2 := by
        unfold paramValue
        rw [StdMap.index_fst, hty]
      rw [mainLoopBody_resolved showDouble bagpath bagname m st r flag e ty hf hty]
      simp only [dispatchable, hf, hpv] at hd
      simp only [routedLine, hf, hpv]
      by_cases h1 : ty.2 = CAMERA
      · simp only [if_pos h1, Bool.and_eq_true] at hd ⊢
        obtain ⟨image, himg⟩ := Option.isSome_iff_exists.1 hd.1
        obtain ⟨dd, hdd⟩ := Option.isSome_iff_exists.1 hd.2
        obtain ⟨st', hb, hc, _, hq⟩ := cameraBlock_spec bagpath bagname e st r image dd hs himg hdd
        refine ⟨{ st' with counter := counterIncrement st'.counter }, by rw [hb]; rfl,
          by rw [← hc], fun q => ?_⟩
        rw [hq q]
        have hh : (headerLine ty.2).isSome = true := (headerLine_isSome _).2 (Or.inl h1)
        by_cases hk : e.1 = q
        · simp [hk, hh, instantiateImage_msg r image himg, csvLine]
        · simp [hk]
      · by_cases h2 : ty.2 = IMU
        · simp only [if_neg h1, if_pos h2] at hd ⊢
          obtain ⟨imu, himu⟩ := Option.isSome_iff_exists.1 hd
          obtain ⟨st', hb, hc, _, hq⟩ := imuBlock_spec showDouble e st r imu hs himu
          refine ⟨{ st' with counter := counterIncrement st'.counter }, by rw [hb]; rfl,
            by rw [← hc], fun q => ?_⟩
          rw [hq q]
          have hh : (headerLine ty.2).isSome = true :=
            (headerLine_isSome _).2 (Or.inr (Or.inl h2))
          by_cases hk : e.1 = q
          · simp [hk, hh, instantiateImu_msg r imu himu, csvLine]
          · simp [hk]
        · by_cases h3 : ty.2 = VICON
          · simp only [if_neg h1, if_neg h2, if_pos h3] at hd ⊢
            obtain ⟨vicon, hv⟩ := Option.isSome_iff_exists.1 hd
            obtain ⟨st', hb, hc, _, hq⟩ := viconBlock_spec showDouble e st r vicon hs hv
            refine ⟨{ st' with counter := counterIncrement st'.counter }, by rw [hb]; rfl,
              by rw [← hc], fun q => ?_⟩
            rw [hq q]
            have hh : (headerLine ty.2).isSome = true :=
              (headerLine_isSome _).2 (Or.inr (Or.inr h3))
            by_cases hk : e.1 = q
            · simp [hk, hh, instantiateTransform_msg r vicon hv, csvLine]
            · simp [hk]
          · simp only [if_neg h1, if_neg h2, if_neg h3]
            refine ⟨_, rfl, rfl, fun q => ?_⟩
            have hh : ¬ (headerLine ty.2).isSome = true := fun h =>
              (((headerLine_isSome _).1 h).elim h1 (fun h' => h'.elim h2 h3))
            simp [hh, appendLines_nil]

theorem mainLoop_spec {D : Type} (showDouble : D → Str) (bagpath bagname : Str)
    (m : SensorInfoMap) (records : List (MessageInstance D)) (st : RunState)
    (hsinks : ∀ q e, StdMap.find m q = some e → (StdMap.find st.topic2file q).isSome = true)
    (htypes : ∀ q e, StdMap.find m q = some e → (StdMap.find e.2 SENSOR_TYPE).isSome = true)
    (hd : ∀ r ∈ records, dispatchable m r = true) :
    ∃ st', mainLoop showDouble bagpath bagname m st records = some st' ∧
      (st.counter ≤ 2 ^ 53 → st'.counter = min (st.counter + records.length) (2 ^ 53)) ∧
      ∀ q, StdMap.find st'.topic2file q = (StdMap.find st.topic2file q).map
        (appendLines (records.filterMap (routedLine showDouble m q))) := by
  induction records generalizing st with
  | nil =>
    refine ⟨st, rfl, fun h => ?_, fun q => ?_⟩
    · simp only [List.length_nil, Nat.add_zero]
      omega
    · simp only [List.filterMap_nil, appendLines_nil]
  | cons r rest ih =>
    obtain ⟨st1, hb, hc, hq⟩ := mainLoopBody_spec showDouble bagpath bagname m st r hsinks htypes
      (hd r (List.mem_cons_self _ _))
    have hlen : (r :: rest).length = rest.length + 1 := rfl
    have hsinks1 : ∀ q e, StdMap.find m q = some e →
        (StdMap.find st1.topic2file q).isSome = true := by
      intro q e he
      rw [hq q]
      have := hsinks q e he
      obtain ⟨f, hf⟩ := Option.isSome_iff_exists.1 this
      simp [hf]
    obtain ⟨st', hl, hc', hq'⟩ := ih st1 hsinks1
      (fun r' hr' => hd r' (List.mem_cons_of_mem _ hr'))
    refine ⟨st', ?_, fun h0 => ?_, fun q => ?_⟩
    · unfold mainLoop
      simp only [hb]
      exact hl
    · unfold counterIncrement at hc
      by_cases hlt : st.counter < 2 ^ 53
      · rw [if_pos hlt] at hc
        rw [hc' (by omega), hc, hlen]
        omega
      · rw [if_neg hlt] at hc
        rw [hc' (by omega), hc, hlen]
        omega
    · rw [hq' q, hq q, appendLines_append]
      congr 2
      rw [List.filterMap_cons]
      cases routedLine showDouble m q r <;> rfl

/-! ## From the configuration to the open streams -/

theorem sensorInfo_ok_loop (nh : NodeHandle) (m : SensorInfoMap) (h : sensorInfo nh = .ok m) :
    ∃ l csv, nh.getParamList SENSOR_LIST = some l ∧ nh.getParamString CSVFILE = some csv ∧
      sensorInfoLoop nh csv l [] = .ok m := by
  unfold sensorInfo at h
  cases hl : nh.getParamList SENSOR_LIST with
  | none =>
    rw [hl] at h
    cases h
  | some l =>
    cases hc : nh.getParamString CSVFILE with
    | none =>
      rw [hl, hc] at h
      cases h
    | some csv =>
      rw [hl, hc] at h
      exact ⟨l, csv, rfl, rfl, h⟩

theorem sensorEntry_fields (s csv : Str) (p : StdMap Str) :
    StdMap.find (sensorEntry s csv p).2 CSVFILE = some (CSVFILE, s ++ "/".toList ++ csv) ∧
    StdMap.find (sensorEntry s csv p).2 NAME = some (NAME, s) ∧
    StdMap.find (sensorEntry s csv p).2 SENSOR_TYPE =
      some (SENSOR_TYPE, paramValue p SENSOR_TYPE) ∧
    StdMap.find (sensorEntry s csv p).2 DATADIR =
      (StdMap.find p DATADIR).map (fun d => (DATADIR, s ++ "/".toList ++ d.2)) := by
  rw [sensorEntry_eq]
  cases StdMap.find p DATADIR with
  | none => exact ⟨rfl, rfl, rfl, rfl⟩
  | some d => exact ⟨rfl, rfl, rfl, rfl⟩

theorem sensorInfo_entry (nh : NodeHandle) (m : SensorInfoMap) (h : sensorInfo nh = .ok m)
    (q : Str) (e : Str × StdMap Str) (hq : StdMap.find m q = some e) :
    ∃ l csv, nh.getParamList SENSOR_LIST = some l ∧ nh.getParamString CSVFILE = some csv ∧
      FromSensor nh csv l e := by
  obtain ⟨l, csv, hl, hc, hloop⟩ := sensorInfo_ok_loop nh m h
  rcases sensorInfoLoop_find nh csv l [] m hloop q e hq with h1 | h1
  · cases h1
  · exact ⟨l, csv, hl, hc, h1⟩

theorem sensorInfo_nodup (nh : NodeHandle) (m : SensorInfoMap) (h : sensorInfo nh = .ok m) :
    (StdMap.keys m).Nodup := by
  obtain ⟨l, csv, _, _, hloop⟩ := sensorInfo_ok_loop nh m h
  exact sensorInfoLoop_nodup nh csv l [] m hloop List.nodup_nil

theorem StdMap.find_of_mem_nodup {V : Type} (m : StdMap V) (e : Str × V)
    (hnd : (StdMap.keys m).Nodup) (he : e ∈ m) : StdMap.find m e.1 = some e := by
  induction m with
  | nil => cases he
  | cons p rest ih =>
    obtain ⟨k, v⟩ := p
    have hkeys : StdMap.keys ((k, v) :: rest) = k :: StdMap.keys rest := rfl
    rw [hkeys] at hnd
    obtain ⟨hk, hrest⟩ := List.nodup_cons.1 hnd
    unfold StdMap.find
    rcases List.mem_cons.1 he with h1 | h1
    · subst h1
      simp
    · have hne : ¬ k = e.1 := by
        intro hke
        apply hk
        rw [hke]
        exact List.mem_map_of_mem Prod.fst h1
      rw [if_neg hne]
      exact ih hrest h1

/-- Every entry of an accepted configuration has a type. -/
theorem sensorInfo_has_type (nh : NodeHandle) (m : SensorInfoMap) (h : sensorInfo nh = .ok m)
    (q : Str) (e : Str × StdMap Str) (hq : StdMap.find m q = some e) :
    (StdMap.find e.2 SENSOR_TYPE).isSome = true := by
  obtain ⟨l, csv, _, _, s, _, p, _, he⟩ := sensorInfo_entry nh m h q e hq
  rw [he, (sensorEntry_fields s csv p).2.2.1]
  rfl

theorem openFileStreams_spec (root : Str) (info : SensorInfoMap)
    (hnd : (StdMap.keys info).Nodup)
    (hcsv : ∀ e ∈ info, (StdMap.find e.2 CSVFILE).isSome = true) :
    ∃ files, openFileStreams root info = some (files, info) ∧
      ∀ q, StdMap.find files q = (StdMap.find info q).map (sinkOf root) := by
  have hinfo := openFileStreamsLoop_info root info [] hcsv
  have hfind := openFileStreamsLoop_find root info []
  have hfiles : ∀ k ∈ StdMap.keys info,
      (StdMap.find (openFileStreamsLoop root info []).1 k).isSome = true := by
    intro k hk
    rw [hfind k]
    have hne : StdMap.find info k ≠ none := fun hn => (StdMap.find_eq_none_iff info k).1 hn hk
    cases hf : StdMap.find info k with
    | none => exact absurd hf hne
    | some e => rfl
  obtain ⟨files, hw, hf⟩ := writeCSVHeaders_spec info (openFileStreamsLoop root info []).1 hnd hfiles
  refine ⟨files, ?_, fun q => ?_⟩
  · unfold openFileStreams
    simp only [hinfo, hw]
  · rw [hf q, hfind q]
    cases StdMap.find info q with
    | none => rfl
    | some e => rfl

/-- After `sensorInfo` and `openFileStreams`, the stream map holds, under each
topic of the sensor map, the stream of that entry with its header. -/
theorem openFileStreams_of_sensorInfo (nh : NodeHandle) (m : SensorInfoMap) (root : Str)
    (h : sensorInfo nh = .ok m) :
    ∃ files, openFileStreams root m = some (files, m) ∧
      ∀ q, StdMap.find files q = (StdMap.find m q).map (sinkOf root) := by
  have hnd := sensorInfo_nodup nh m h
  apply openFileStreams_spec root m hnd
  intro e he
  have hfe := StdMap.find_of_mem_nodup m e hnd he
  obtain ⟨l, csv, _, _, s, _, p, _, hes⟩ := sensorInfo_entry nh m h e.1 e hfe
  rw [hes, (sensorEntry_fields s csv p).1]
  rfl

theorem sensorInfoLoop_params (nh : NodeHandle) (csv : Str) (l : List Str)
    (acc m : SensorInfoMap) (h : sensorInfoLoop nh csv l acc = .ok m) :
    ∀ s ∈ l, (nh.getParamMap (INFO ++ "/".toList ++ s)).isSome = true := by
  by_contra hn
  obtain ⟨s, _, _, he⟩ := sensorInfoLoop_error nh csv l acc hn
  rw [he] at h
  cases h

theorem withHeader_of_headerLine (ty h path : Str) (hty : headerLine ty = some h) :
    withHeader ty { path := path, lines := [] } = { path := path, lines := [h] } := by
  unfold withHeader
  rw [hty]
  rfl

theorem sinkOf_sensorEntry (root s csv : Str) (p : StdMap Str) :
    sinkOf root (sensorEntry s csv p) =
      ((sensorEntry s csv p).1, withHeader (paramValue p SENSOR_TYPE)
        { path := root ++ "/".toList ++ (s ++ "/".toList ++ csv), lines := [] }) := by
  obtain ⟨h1, _, h3, _⟩ := sensorEntry_fields s csv p
  unfold sinkOf paramValue
  rw [StdMap.index_fst, StdMap.index_fst, h1, h3]
  simp only [paramValue, StdMap.index_fst]

theorem dispatchable_of_unresolved {D : Type} (m : SensorInfoMap) (r : MessageInstance D)
    (h : findTopicInMap m r.topic = some (false, none)) : dispatchable m r = true := by
  unfold dispatchable
  rw [h]

theorem routedLine_of_unresolved {D : Type} (showDouble : D → Str) (m : SensorInfoMap)
    (q : Str) (r : MessageInstance D)
    (h : findTopicInMap m r.topic = some (false, none)) : routedLine showDouble m q r = none := by
  unfold routedLine
  rw [h]

theorem filterMap_routedLine_unresolved {D : Type} (showDouble : D → Str) (m : SensorInfoMap)
    (q : Str) (records : List (MessageInstance D))
    (h : ∀ r ∈ records, findTopicInMap m r.topic = some (false, none)) :
    records.filterMap (routedLine showDouble m q) = [] := by
  induction records with
  | nil => rfl
  | cons r rest ih =>
    rw [List.filterMap_cons, routedLine_of_unresolved showDouble m q r (h r (List.mem_cons_self _ _))]
    exact ih (fun r' hr' => h r' (List.mem_cons_of_mem _ hr'))

/-- C5 (as amended). For an accepted configuration, a listed sensor whose type
is `camera`, `imu` or `vicon` and whose topic no other listed sensor shares
has, after `sensorInfo`, `openFileStreams` and a streaming loop over records
none of which resolves, a stream opened on
`<outputRoot>/<sensorName>/<sharedFilename>` whose content is exactly the
header line of the sensor's type. -/
theorem header_only_sink {D : Type} (showDouble : D → Str) (nh : NodeHandle)
    (m : SensorInfoMap) (bagpath bagname : Str) (records : List (MessageInstance D))
    (l : List Str) (csv s h : Str)
    (hm : sensorInfo nh = .ok m)
    (hl : nh.getParamList SENSOR_LIST = some l)
    (hcsv : nh.getParamString CSVFILE = some csv)
    (hs : s ∈ l)
    (huniq : ∀ s' ∈ l, sensorTopic nh s' = sensorTopic nh s → s' = s)
    (hty : headerLine (sensorType nh s) = some h)
    (hrec : ∀ r ∈ records, findTopicInMap m r.topic = some (false, none)) :
    ∃ files st, openFileStreams (bagpath ++ bagname) m = some (files, m) ∧
      mainLoop showDouble bagpath bagname m
        { topic2file := files, imwrite := [], counter := 0 } records = some st ∧
      StdMap.find st.topic2file (sensorTopic nh s) = some (sensorTopic nh s,
        { path := bagpath ++ bagname ++ "/".toList ++ (s ++ "/".toList ++ csv), lines := [h] }) := by
  obtain ⟨l', csv', hl', hcsv', hloop⟩ := sensorInfo_ok_loop nh m hm
  rw [hl] at hl'
  rw [hcsv] at hcsv'
  cases hl'
  cases hcsv'
  obtain ⟨p, hp⟩ := Option.isSome_iff_exists.1 (sensorInfoLoop_params nh csv l [] m hloop s hs)
  have hfind := sensorInfoLoop_complete nh csv l [] m hloop s hs p hp huniq rfl
  obtain ⟨files, hopen, hfiles⟩ := openFileStreams_of_sensorInfo nh m (bagpath ++ bagname) hm
  have hsinks : ∀ q e, StdMap.find m q = some e → (StdMap.find files q).isSome = true := by
    intro q e he
    rw [hfiles q, he]
    rfl
  obtain ⟨st, hrun, _, hq⟩ := mainLoop_spec showDouble bagpath bagname m records
    { topic2file := files, imwrite := [], counter := 0 } hsinks (sensorInfo_has_type nh m hm)
    (fun r hr => dispatchable_of_unresolved m r (hrec r hr))
  refine ⟨files, st, hopen, hrun, ?_⟩
  rw [hq, filterMap_routedLine_unresolved showDouble m _ records hrec, appendLines_nil]
  show StdMap.find files (sensorTopic nh s) = _
  rw [hfiles, hfind]
  have hst : sensorType nh s = paramValue p SENSOR_TYPE := by
    unfold sensorType sensorParams
    rw [hp]
    rfl
  rw [hst] at hty
  simp only [Option.map_some', sinkOf_sensorEntry, sensorTopic_eq nh csv s p hp,
    withHeader_of_headerLine _ h _ hty]

theorem withHeader_lines (ty path : Str) :
    withHeader ty { path := path, lines := [] } =
      { path := path, lines := (headerLine ty).toList } := by
  unfold withHeader
  cases headerLine ty <;> rfl

theorem mainLoopBody_unresolved {D : Type} (showDouble : D → Str) (bagpath bagname : Str)
    (m : SensorInfoMap) (st : RunState) (r : MessageInstance D)
    (h : findTopicInMap m r.topic = some (false, none)) :
    mainLoopBody showDouble bagpath bagname m st r =
      some { st with counter := counterIncrement st.counter } := by
  unfold mainLoopBody
  rw [h]

/-- C2 (as amended). For an accepted configuration and a list of at most
`2^53` records each of which the loop body can serve, the streaming loop
completes; the counter then equals the number of records; the stream under
each topic of the sensor map holds its header (when the type has one)
followed by exactly the CSV lines of the records that resolve to that entry
and whose entry type is `camera`, `imu` or `vicon`, in log order; no other
stream exists; and a record that resolves to no entry only advances the
counter. -/
theorem streaming_loop_routes {D : Type} (showDouble : D → Str) (nh : NodeHandle)
    (m : SensorInfoMap) (bagpath bagname : Str) (records : List (MessageInstance D))
    (hm : sensorInfo nh = .ok m)
    (hd : ∀ r ∈ records, dispatchable m r = true)
    (hlen : records.length ≤ 2 ^ 53) :
    ∃ files st, openFileStreams (bagpath ++ bagname) m = some (files, m) ∧
      mainLoop showDouble bagpath bagname m
        { topic2file := files, imwrite := [], counter := 0 } records = some st ∧
      st.counter = records.length ∧
      (∀ q e, StdMap.find m q = some e →
        StdMap.find st.topic2file q = some (q,
          { path := bagpath ++ bagname ++ "/".toList ++ paramValue e.2 CSVFILE,
            lines := (headerLine (paramValue e.2 SENSOR_TYPE)).toList ++
              records.filterMap (routedLine showDouble m q) })) ∧
      (∀ q, StdMap.find m q = none → StdMap.find st.topic2file q = none) ∧
      (∀ (st1 : RunState) (r : MessageInstance D),
        findTopicInMap m r.topic = some (false, none) →
          (∀ q, routedLine showDouble m q r = none) ∧
          mainLoopBody showDouble bagpath bagname m st1 r =
            some { st1 with counter := counterIncrement st1.counter }) := by
  obtain ⟨files, hopen, hfiles⟩ := openFileStreams_of_sensorInfo nh m (bagpath ++ bagname) hm
  have hsinks : ∀ q e, StdMap.find m q = some e → (StdMap.find files q).isSome = true := by
    intro q e he
    rw [hfiles q, he]
    rfl
  obtain ⟨st, hrun, hc, hq⟩ := mainLoop_spec showDouble bagpath bagname m records
    { topic2file := files, imwrite := [], counter := 0 } hsinks (sensorInfo_has_type nh m hm) hd
  refine ⟨files, st, hopen, hrun, ?_, ?_, ?_, ?_⟩
  · have h0 := hc (Nat.zero_le _)
    rw [h0]
    show min (0 + records.length) (2 ^ 53) = records.length
    omega
  · intro q e he
    rw [hq]
    show (StdMap.find files q).map _ = _
    rw [hfiles, he]
    have hk : e.1 = q := StdMap.find_key m q e he
    simp only [Option.map_some', sinkOf, withHeader_lines, appendLines, hk]
  · intro q hn
    rw [hq]
    show (StdMap.find files q).map _ = _
    rw [hfiles, hn]
    rfl
  · intro st1 r hr
    exact ⟨fun q => routedLine_of_unresolved showDouble m q r hr,
      mainLoopBody_unresolved showDouble bagpath bagname m st1 r hr⟩

/-- C7. For an accepted configuration and an image record with time stamp
`ts` whose topic resolves to an entry of type `camera` with name `n`, where
the parameter block of `n` has the data directory `d`: at any point of the
streaming loop the loop body passes `<outputRoot>/n/d/<ts>.png` to
`cv::imwrite` and appends exactly the line `<ts>,<ts>.png` to the stream of
that entry, which was opened on `<outputRoot>/n/<sharedFilename>`; `ts` is
printed in decimal, and no other stream changes. -/
theorem camera_record_written {D : Type} (showDouble : D → Str) (nh : NodeHandle)
    (m : SensorInfoMap) (bagpath bagname : Str) (before : List (MessageInstance D))
    (r : MessageInstance D) (image : Image) (flag : Bool) (e : Str × StdMap Str)
    (n d csv : Str)
    (hm : sensorInfo nh = .ok m)
    (hcsv : nh.getParamString CSVFILE = some csv)
    (hd : ∀ r' ∈ before, dispatchable m r' = true)
    (hmsg : r.msg = .image image)
    (hres : findTopicInMap m r.topic = some (flag, some e))
    (hcam : paramValue e.2 SENSOR_TYPE = CAMERA)
    (hname : StdMap.find e.2 NAME = some (NAME, n))
    (hdir : StdMap.find (sensorParams nh n) DATADIR = some (DATADIR, d)) :
    ∃ files st st' file, openFileStreams (bagpath ++ bagname) m = some (files, m) ∧
      mainLoop showDouble bagpath bagname m
        { topic2file := files, imwrite := [], counter := 0 } before = some st ∧
      mainLoopBody showDouble bagpath bagname m st r = some st' ∧
      st'.imwrite = st.imwrite ++ [bagpath ++ bagname ++ "/".toList ++ (n ++ "/".toList ++ d) ++
        "/".toList ++ Nat.toDigits 10 image.stamp ++ ".png".toList] ∧
      StdMap.find st.topic2file e.1 = some (e.1, file) ∧
      file.path = bagpath ++ bagname ++ "/".toList ++ (n ++ "/".toList ++ csv) ∧
      StdMap.find st'.topic2file e.1 = some (e.1, { file with lines := file.lines ++
        [Nat.toDigits 10 image.stamp ++ ",".toList ++ Nat.toDigits 10 image.stamp ++
          ".png".toList] }) ∧
      ∀ q, q ≠ e.1 → StdMap.find st'.topic2file q = StdMap.find st.topic2file q := by
  obtain ⟨files, hopen, hfiles⟩ := openFileStreams_of_sensorInfo nh m (bagpath ++ bagname) hm
  have hsinks : ∀ q e, StdMap.find m q = some e → (StdMap.find files q).isSome = true := by
    intro q e he
    rw [hfiles q, he]
    rfl
  have htypes := sensorInfo_has_type nh m hm
  obtain ⟨st, hrun, _, hq⟩ := mainLoop_spec showDouble bagpath bagname m before
    { topic2file := files, imwrite := [], counter := 0 } hsinks htypes hd
  have hfind := findTopicInMap_some_find m r.topic flag e hres
  obtain ⟨l, csv', _, hcsv', s, _, p, hp, hes⟩ := sensorInfo_entry nh m hm e.1 e hfind
  rw [hcsv] at hcsv'
  cases hcsv'
  obtain ⟨_, f2, f3, f4⟩ := sensorEntry_fields s csv p
  have hsn : s = n := by
    rw [hes, f2] at hname
    simp only [Option.some.injEq, Prod.mk.injEq, true_and] at hname
    exact hname
  subst hsn
  have hpar : sensorParams nh s = p := by
    unfold sensorParams
    rw [hp]
    rfl
  rw [hpar] at hdir
  have hdd : StdMap.find e.2 DATADIR = some (DATADIR, s ++ "/".toList ++ d) := by
    rw [hes, f4, hdir]
    rfl
  have hty : StdMap.find e.2 SENSOR_TYPE = some (SENSOR_TYPE, CAMERA) := by
    have : paramValue p SENSOR_TYPE = CAMERA := by
      rw [hes] at hcam
      unfold paramValue at hcam
      rw [StdMap.index_fst, f3] at hcam
      exact hcam
    rw [hes, f3, this]
  have hsink0 : StdMap.find st.topic2file e.1 = some (appendLines
      (before.filterMap (routedLine showDouble m e.1)) (sinkOf (bagpath ++ bagname) e)) := by
    rw [hq]
    show (StdMap.find files e.1).map _ = _
    rw [hfiles, hfind]
    rfl
  have hs : (StdMap.find st.topic2file e.1).isSome = true := by
    rw [hsink0]
    rfl
  have himg : r.instantiateImage = some image := by
    unfold MessageInstance.instantiateImage
    rw [hmsg]
  obtain ⟨st1, hb, _, hw, hq1⟩ := cameraBlock_spec bagpath bagname e st r image
    (DATADIR, s ++ "/".toList ++ d) hs himg hdd
  have hbody : mainLoopBody showDouble bagpath bagname m st r =
      some { st1 with counter := counterIncrement st1.counter } := by
    rw [mainLoopBody_resolved showDouble bagpath bagname m st r flag e _ hres hty, if_pos rfl, hb]
    rfl
  refine ⟨files, st, _, _, hopen, hrun, hbody, hw, hsink0, ?_, ?_, ?_⟩
  · rw [hes, sinkOf_sensorEntry, withHeader_lines]
  · show StdMap.find st1.topic2file e.1 = _
    rw [hq1, hsink0]
    simp only [if_true, Option.map_some', appendLines]
    rfl
  · intro q hne
    show StdMap.find st1.topic2file q = _
    have hne' : ¬ e.1 = q := fun h => hne h.symm
    rw [hq1, if_neg hne', appendLines_nil]

/-! ## The fields of a CSV line -/

theorem digitChar_ne_comma (d : Nat) (h : d < 10) : Nat.digitChar d ≠ ',' := by
  interval_cases d <;> decide

theorem toDigitsCore_no_comma (fuel n : Nat) (ds : List Char) (h : ',' ∉ ds) :
    ',' ∉ Nat.toDigitsCore 10 fuel n ds := by
  induction fuel generalizing n ds with
  | zero => exact h
  | succ fuel ih =>
    have hd : ',' ∉ Nat.digitChar (n % 10) :: ds := by
      intro hm
      rcases List.mem_cons.1 hm with e | e
      · exact digitChar_ne_comma (n % 10) (Nat.mod_lt _ (by decide)) e.symm
      · exact h e
    unfold Nat.toDigitsCore
    simp only []
    split
    · exact hd
    · exact ih _ _ hd

theorem showUInt_no_comma (n : Nat) : ',' ∉ showUInt n :=
  toDigitsCore_no_comma _ _ _ (List.not_mem_nil _)

/-- With numbers that print without a comma, a camera line has the 2 fields of
its header, an IMU line the 7 fields of its header, and a Vicon line 8 fields,
one more than the header `writeViconHeader` writes. -/
theorem csvFields_of_lines {D : Type} (showDouble : D → Str) (h : ∀ d, ',' ∉ showDouble d)
    (stamp : Nat) (imu : Imu D) (vicon : TransformStamped D) :
    (csvFields (cameraLine stamp)).length = (csvFields cameraHeader).length ∧
    (csvFields (imuLine showDouble imu)).length = (csvFields imuHeader).length ∧
    (csvFields (viconLine showDouble vicon)).length = (csvFields viconHeader).length + 1 := by
  have hcam : cameraLine stamp =
      [','].intercalate [showUInt stamp, showUInt stamp ++ ".png".toList] := by
    simp [cameraLine, List.intercalate, List.intersperse]
  have himu : imuLine showDouble imu = [','].intercalate [showUInt imu.stamp,
      showDouble imu.angular_velocity.x, showDouble imu.angular_velocity.y,
      showDouble imu.angular_velocity.z, showDouble imu.linear_acceleration.x,
      showDouble imu.linear_acceleration.y, showDouble imu.linear_acceleration.z] := by
    simp [imuLine, List.intercalate, List.intersperse]
  have hvic : viconLine showDouble vicon = [','].intercalate [showUInt vicon.stamp,
      showDouble vicon.translation.x, showDouble vicon.translation.y,
      showDouble vicon.translation.z, showDouble vicon.rotation.w,
      showDouble vicon.rotation.x, showDouble vicon.rotation.y,
      showDouble vicon.rotation.z] := by
    simp [viconLine, List.intercalate, List.intersperse]
  have hpng : ',' ∉ showUInt stamp ++ ".png".toList := by
    intro hm
    rcases List.mem_append.1 hm with e | e
    · exact showUInt_no_comma _ e
    · exact absurd e (by decide)
  have h2 : (csvFields cameraHeader).length = 2 := by decide
  have h7 : (csvFields imuHeader).length = 7 := by decide
  have h7' : (csvFields viconHeader).length = 7 := by decide
  rw [h2, h7, h7']
  unfold csvFields
  refine ⟨?_, ?_, ?_⟩
  · rw [hcam, List.splitOn_intercalate _ ',' ?_ (by simp)]
    · rfl
    · intro l hl
      simp only [List.mem_cons, List.mem_singleton, List.not_mem_nil, or_false] at hl
      rcases hl with e | e
      · rw [e]; exact showUInt_no_comma _
      · rw [e]; exact hpng
  · rw [himu, List.splitOn_intercalate _ ',' ?_ (by simp)]
    · rfl
    · intro l hl
      simp only [List.mem_cons, List.mem_singleton, List.not_mem_nil, or_false] at hl
      rcases hl with e | e | e | e | e | e | e <;> rw [e]
      · exact showUInt_no_comma _
      all_goals exact h _
  · rw [hvic, List.splitOn_intercalate _ ',' ?_ (by simp)]
    · rfl
    · intro l hl
      simp only [List.mem_cons, List.mem_singleton, List.not_mem_nil, or_false] at hl
      rcases hl with e | e | e | e | e | e | e | e <;> rw [e]
      · exact showUInt_no_comma _
      all_goals exact h _

/-! ## Instances, counterexamples and failing inputs -/

theorem unmappedLog_unresolved :
    ∀ r ∈ unmappedLog, findTopicInMap scenarioMap r.topic = some (false, none) := by
  intro r hr
  simp only [unmappedLog, List.mem_cons, List.mem_singleton, List.not_mem_nil, or_false] at hr
  rcases hr with h | h <;> rw [h] <;> rfl

theorem header_only_sink_witness :
    ∃ files st, openFileStreams ("/data/".toList ++ "bag".toList) scenarioMap =
        some (files, scenarioMap) ∧
      mainLoop showUInt "/data/".toList "bag".toList scenarioMap ⟨files, [], 0⟩ unmappedLog =
        some st ∧
      StdMap.find st.topic2file (sensorTopic scenarioConfig "imu0".toList) =
        some (sensorTopic scenarioConfig "imu0".toList,
          ⟨"/data/".toList ++ "bag".toList ++ "/".toList ++
              ("imu0".toList ++ "/".toList ++ "data.csv".toList), [imuHeader]⟩) :=
  header_only_sink showUInt scenarioConfig scenarioMap "/data/".toList "bag".toList unmappedLog
    ["cam0".toList, "imu0".toList] "data.csv".toList "imu0".toList imuHeader
    rfl rfl rfl (by decide) (by decide) rfl unmappedLog_unresolved

/-- C5 (counterexample). Of two listed cameras that are given the same topic
only the first has a stream after initialization, so no stream is opened on
the CSV path of the second; and a sensor whose type is none of the three
constants has a stream without any header line. -/
theorem header_only_sink_counterexample :
    (sensorInfo sharedTopicConfig = .ok sharedTopicMap ∧
      "cam1".toList ∈ ["cam0".toList, "cam1".toList] ∧
      openFileStreams "/data/bag".toList sharedTopicMap =
        some ([("/cam/image".toList, ⟨"/data/bag/cam0/data.csv".toList, [cameraHeader]⟩)],
          sharedTopicMap)) ∧
    (sensorInfo capitalTypeConfig = .ok capitalTypeMap ∧
      openFileStreams "/data/bag".toList capitalTypeMap =
        some ([("/imu0".toList, ⟨"/data/bag/imu0/data.csv".toList, []⟩)], capitalTypeMap)) :=
  ⟨⟨rfl, by decide, rfl⟩, ⟨rfl, rfl⟩⟩

theorem streaming_loop_routes_witness :
    ∃ st, mainLoop showUInt "/data/".toList "bag".toList scenarioMap
        ⟨scenarioFiles, [], 0⟩ scenarioLog = some st ∧
      st.counter = 3 ∧
      StdMap.find st.topic2file "/cam0/image".toList = some ("/cam0/image".toList,
        ⟨"/data/bag/cam0/data.csv".toList, [cameraHeader, "1000,1000.png".toList]⟩) ∧
      StdMap.find st.topic2file "/imu0".toList = some ("/imu0".toList,
        ⟨"/data/bag/imu0/data.csv".toList, [imuHeader, "2000,1,2,3,4,5,6".toList]⟩) := by
  obtain ⟨files, st, hopen, hrun, hc, hq, _, _⟩ :=
    streaming_loop_routes showUInt scenarioConfig scenarioMap "/data/".toList "bag".toList
      scenarioLog rfl (by decide) (by decide)
  have hfiles : files = scenarioFiles := by
    have h : openFileStreams ("/data/".toList ++ "bag".toList) scenarioMap =
        some (scenarioFiles, scenarioMap) := rfl
    rw [h] at hopen
    cases hopen
    rfl
  subst hfiles
  refine ⟨st, hrun, hc, ?_, ?_⟩
  · rw [hq "/cam0/image".toList _ rfl]
    rfl
  · rw [hq "/imu0".toList _ rfl]
    rfl

/-- C2 (counterexample). A sensor whose configured type is `IMU` in capitals
is accepted; an IMU record on its topic resolves to it and has a CSV line,
the loop completes and counts the record, yet the stream of the sensor holds
no line at all. -/
theorem streaming_loop_routes_counterexample :
    sensorInfo capitalTypeConfig = .ok capitalTypeMap ∧
    openFileStreams "/data/bag".toList capitalTypeMap =
      some (capitalTypeFiles, capitalTypeMap) ∧
    findTopicInMap capitalTypeMap imuSample.topic =
      some (true, some ("/imu0".toList, [(CSVFILE, "imu0/data.csv".toList),
        (NAME, "imu0".toList), (SENSOR_TYPE, "IMU".toList)])) ∧
    csvLine showUInt imuSample.msg = some "2000,1,2,3,4,5,6".toList ∧
    mainLoop showUInt "/data/".toList "bag".toList capitalTypeMap
      ⟨capitalTypeFiles, [], 0⟩ [imuSample] = some ⟨capitalTypeFiles, [], 1⟩ ∧
    capitalTypeFiles = [("/imu0".toList, ⟨"/data/bag/imu0/data.csv".toList, []⟩)] :=
  ⟨rfl, rfl, rfl, rfl, rfl, rfl⟩

theorem camera_record_written_witness :
    ∃ st', mainLoopBody showUInt "/data/".toList "bag".toList scenarioMap
        ⟨scenarioFiles, [], 0⟩ scenarioImage = some st' ∧
      st'.imwrite = ["/data/bag/cam0/data/1000.png".toList] ∧
      StdMap.find st'.topic2file "/cam0/image".toList = some ("/cam0/image".toList,
        ⟨"/data/bag/cam0/data.csv".toList, [cameraHeader, "1000,1000.png".toList]⟩) := by
  obtain ⟨files, st, st', file, hopen, hrun, hbody, hw, hsink, _, hline, _⟩ :=
    camera_record_written showUInt scenarioConfig scenarioMap "/data/".toList "bag".toList
      [] scenarioImage ⟨1000⟩ true
      ("/cam0/image".toList, [(DATADIR, "cam0/data".toList), (CSVFILE, "cam0/data.csv".toList),
        (NAME, "cam0".toList), (SENSOR_TYPE, CAMERA)])
      "cam0".toList "data".toList "data.csv".toList
      rfl rfl (by decide) rfl rfl rfl rfl rfl
  have h : openFileStreams ("/data/".toList ++ "bag".toList) scenarioMap =
      some (scenarioFiles, scenarioMap) := rfl
  rw [h] at hopen
  cases hopen
  have hst : st = ⟨scenarioFiles, [], 0⟩ := by
    cases hrun
    rfl
  subst hst
  have hfile : file = ⟨"/data/bag/cam0/data.csv".toList, [cameraHeader]⟩ := by
    cases hsink
    rfl
  subst hfile
  exact ⟨st', hbody, hw, hline⟩

/-- C6 (failing input). The camera header has the 2 fields of a camera line
and the IMU header the 7 fields of an IMU line, but `writeViconHeader` writes
`"R_S_w []"` without its comma: the Vicon header splits into 7 fields, the
fifth being `R_S_w []R_S_x []`, while a Vicon data line has 8. -/
theorem viconHeader_field_count :
    (csvFields cameraHeader).length = 2 ∧
    (csvFields (cameraLine 1000)).length = 2 ∧
    (csvFields imuHeader).length = 7 ∧
    (csvFields (imuLine showUInt ⟨2000, ⟨1, 2, 3⟩, ⟨4, 5, 6⟩⟩)).length = 7 ∧
    (csvFields viconHeader).length = 7 ∧
    (csvFields viconHeader).get? 4 = some "R_S_w []R_S_x []".toList ∧
    (csvFields (viconLine showUInt viconSample)).length = 8 := by
  decide

/-- C9 (failing input). A camera without `data_dir` is accepted by
`sensorInfo`, and `createDirs` falls back to the folder of its name; its
entry has a type and a stream, but no `data_dir`, so for an image record on
its topic the loop body dereferences `find(DATADIR)` at `end()`. -/
theorem camera_without_data_dir :
    sensorInfo noDataDirConfig = .ok noDataDirMap ∧
    (createDirs false (fun _ => true) "/data/bag".toList noDataDirMap).2 =
      [FsOp.create_directories "/data/bag".toList,
        FsOp.create_directories "/data/bag/cam0".toList] ∧
    openFileStreams "/data/bag".toList noDataDirMap = some (noDataDirFiles, noDataDirMap) ∧
    findTopicInMap noDataDirMap "/cam0/image".toList =
      some (true, some ("/cam0/image".toList, [(CSVFILE, "cam0/data.csv".toList),
        (NAME, "cam0".toList), (SENSOR_TYPE, CAMERA)])) ∧
    StdMap.find [(CSVFILE, "cam0/data.csv".toList), (NAME, "cam0".toList),
      (SENSOR_TYPE, CAMERA)] SENSOR_TYPE = some (SENSOR_TYPE, CAMERA) ∧
    (StdMap.find noDataDirFiles "/cam0/image".toList).isSome = true ∧
    StdMap.find [(CSVFILE, "cam0/data.csv".toList), (NAME, "cam0".toList),
      (SENSOR_TYPE, CAMERA)] DATADIR = none ∧
    mainLoopBody showUInt "/data/".toList "bag".toList noDataDirMap ⟨noDataDirFiles, [], 0⟩
      ⟨"/cam0/image".toList, .image ⟨1000⟩⟩ = none :=
  ⟨rfl, rfl, rfl, rfl, rfl, rfl, rfl, rfl⟩

/-- C10 (failing input). For a bag file without an extension the output root
is the path of the bag file itself, which `createDirs` removes when it exists;
this holds for the path of the usage message of `main` too; and for a file
name that begins with its only dot the output root is the directory of the
bag file. -/
theorem outputRoot_is_input_path :
    outputRoot "/data/bag".toList = .ok "/data/bag".toList ∧
    (createDirs true (fun _ => true) "/data/bag".toList []).2 =
      [FsOp.remove_all "/data/bag".toList, FsOp.create_directories "/data/bag".toList] ∧
    outputRoot "/absolute/path/here".toList = .ok "/absolute/path/here".toList ∧
    outputRoot "/data/.bag".toList = .ok "/data/".toList :=
  ⟨rfl, rfl, rfl, rfl⟩

/-- Scenario A through `main`: the run ends with the image written to
`/data/bag/cam0/data/1000.png`, the line `1000,1000.png` after the camera
header, and the counter at the number of records. -/
theorem main_scenario :
    main showUInt scenarioConfig "/data/bag.bag".toList true (fun _ => true) scenarioLog =
      .ok ⟨[("/cam0/image".toList,
            ⟨"/data/bag/cam0/data.csv".toList, [cameraHeader, "1000,1000.png".toList]⟩),
          ("/imu0".toList,
            ⟨"/data/bag/imu0/data.csv".toList, [imuHeader, "2000,1,2,3,4,5,6".toList]⟩)],
        ["/data/bag/cam0/data/1000.png".toList], 3⟩ := rfl
end DatasetConvertor
